import Mathlib

/-!
# Start-up orchestration of the crux node (`src/crux.go`)

`main` is the only function of the file besides the two-line `exit`.  It is a
straight-line orchestration of collaborators that live in other packages
(`config`, `enclave`, `storage`, `api`, `server`, logrus, the Go standard
library).  The embedding below turns `main` into a pure function

  `main : World → Run`

where a `World` fixes everything `main` observes (the program arguments, the
settings the `config` getters return once the command line is parsed, and the
value each collaborator call returns) and a `Run` is the sequence of
collaborator calls `main` makes, in program order and with their arguments,
followed by the way the process ends.

Modelling conventions
* Go strings are Lean `String`s; `len s` is the length in bytes
  (`String.utf8ByteSize`).
* Go `int` values are only compared, never computed with, so they are `Int`.
* Every collaborator is called at most once on any path through `main`, so a
  collaborator is a function of its arguments.  A collaborator call returns
  to `main`; the only ways the process ends are the ones written in `main`.
* `log.Fatal*` logs and then calls `os.Exit(1)`.  Deferred calls do not run on
  `os.Exit`, and `select {}` never returns, so the deferred `db.Close()` is
  never executed and does not appear in any run.
-/

namespace Crux

/-! ## Standard-library and logrus values used by `main` -/

/-- Go `len(s)` for a string: the number of bytes. -/
def len (s : String) : Nat := s.utf8ByteSize

/-- Scan of `strings.Contains`: does `sub` start at some position of the
remaining text? -/
def containsAux (sub : List Char) : List Char → Bool
  | [] => sub.isPrefixOf []
  | c :: cs => sub.isPrefixOf (c :: cs) || containsAux sub cs

/-- Go `strings.Contains(s, substr)`. -/
def stringsContains (s substr : String) : Bool :=
  containsAux substr.data s.data

/-- Left-to-right scan of `strings.Split` for a one-character separator:
`cur` holds the characters of the current field, most recent first. -/
def splitAux (sep : Char) : List Char → List Char → List String
  | [], cur => [String.mk cur.reverse]
  | c :: cs, cur =>
    if c = sep then String.mk cur.reverse :: splitAux sep cs []
    else splitAux sep cs (c :: cur)

/-- Go `strings.Split(s, sep)` for a separator of one character (`main` only
splits on `","`). -/
def stringsSplit (s : String) (sep : Char) : List String :=
  splitAux sep s.data []

/-- Go `time.Duration`: a count of nanoseconds. -/
abbrev Duration := Int

/-- Go `time.Second`. -/
def timeSecond : Duration := 1000000000

/-- Go `http.Client`, reduced to the one field `main` sets.  A `Timeout` of
zero means no timeout. -/
structure HttpClient where
  Timeout : Duration
  deriving DecidableEq, Repr

/-- Go `http.DefaultClient`, declared in `net/http` as `&Client{}`: every
field has its zero value. -/
def httpDefaultClient : HttpClient := { Timeout := 0 }

/-- A request made through the client is abandoned after a finite, non-zero
time: `net/http` sets a deadline exactly when `Timeout > 0`. -/
def HttpClient.bounded (c : HttpClient) : Prop := 0 < c.Timeout

instance (c : HttpClient) : Decidable c.bounded := by
  unfold HttpClient.bounded; infer_instance

/-- The logrus type `Level` (a `uint32`). -/
abbrev Level := Nat

/-- The logrus constant `PanicLevel`, the first of the `iota` list and so the
zero value of `Level`. -/
def PanicLevel : Level := 0

/-- The logrus constant `FatalLevel`. -/
def FatalLevel : Level := 1

/-- The logrus constant `ErrorLevel`. -/
def ErrorLevel : Level := 2

/-- The logrus constant `WarnLevel`. -/
def WarnLevel : Level := 3

/-- The logrus constant `InfoLevel`. -/
def InfoLevel : Level := 4

/-- The logrus constant `DebugLevel`. -/
def DebugLevel : Level := 5

/-- The logrus test `IsLevelEnabled`: with the logger at `logger`, an entry of
level `entry` is written exactly when `logger ≥ entry`. -/
def isLevelEnabled (logger entry : Level) : Bool := decide (entry ≤ logger)

/-! ## Values owned by the collaborating packages -/

/-- A `storage.DataStore` handle. -/
structure DataStore where
  id : Nat
  deriving DecidableEq, Repr

/-- A `*api.PartyInfo` instance (pointer identity). -/
structure PartyInfo where
  id : Nat
  deriving DecidableEq, Repr

/-- A public key (`nacl.Key`), as its bytes. -/
abbrev Key := List Nat

/-- A `*enclave.SecureEnclave`; `main` reads only its `PubKeys`. -/
structure Enclave where
  id : Nat
  PubKeys : List Key
  deriving DecidableEq, Repr

/-- A Go `error` value that is not `nil`, as its message. -/
abbrev Error := String

/-- The settings as the `config` getters return them from line 37 on, that
is, once `config.LoadConfig` and `config.ParseCommandLine` have run. -/
structure Config where
  Verbosity : Int
  GenerateKeys : String
  GenerateCert : String
  WorkDir : String
  Storage : String
  Socket : String
  BerkeleyDb : Bool
  OtherNodes : List String
  Url : String
  Port : Int
  UseGRPC : Bool
  PrivateKeys : String
  PublicKeys : String
  Tls : Bool
  TlsServerCert : String
  TlsServerKey : String
  GrpcJsonPort : Int
  deriving DecidableEq, Repr

/-- Everything `main` observes. -/
structure World where
  /-- The value of `os.Args`. -/
  args : List String
  /-- The settings after parsing. -/
  config : Config
  /-- The function `path.Join`, at two elements. -/
  pathJoin : String → String → String
  /-- The error `config.LoadConfig(file)` returns, if any. -/
  LoadConfig : String → Option Error
  /-- The error `enclave.DoKeyGeneration(keyFile)` returns, if any. -/
  DoKeyGeneration : String → Option Error
  /-- The error `enclave.CertGen(genCert)` returns, if any. -/
  CertGen : String → Option Error
  /-- The pair `storage.InitBerkeleyDb(path)` returns. -/
  InitBerkeleyDb : String → DataStore × Option Error
  /-- The pair `storage.InitLevelDb(path)` returns. -/
  InitLevelDb : String → DataStore × Option Error
  /-- The instance `api.InitPartyInfo(url, otherNodes, client, grpc)` returns. -/
  InitPartyInfo : String → List String → HttpClient → Bool → PartyInfo
  /-- The enclave `enclave.Init(db, pubKeyFiles, privKeyFiles, pi, client, grpc)`
  returns. -/
  EnclaveInit : DataStore → List String → List String → PartyInfo → HttpClient → Bool → Enclave
  /-- The error `server.Init(enc, port, ipcPath, grpc, grpcJsonport, tls,
  tlsCertFile, tlsKeyFile)` returns, if any. -/
  ServerInit : Enclave → Int → String → Bool → Int → Bool → String → String → Option Error

/-- The `log.Fatal*` call sites of `main`, with what each one logs. -/
inductive Fatal where
  /-- Line 30, `log.Fatalln(err)`. -/
  | loadConfig (err : Error)
  /-- Line 56, `log.Fatalln(err)`. -/
  | keyGeneration (err : Error)
  /-- Line 89, "Unable to initialise storage, error: %v". -/
  | storage (err : Error)
  /-- Line 96, "URL must be specified". -/
  | urlMissing
  /-- Line 100, "Port must be specified". -/
  | portMissing
  /-- Line 115, "Private keys provided must have corresponding public keys". -/
  | keyCountMismatch
  /-- Line 119, "Node key files must be provided". -/
  | noKeyFiles
  /-- Line 143, "Please provide server certificate and key for TLS %s %s %d ". -/
  | tlsFiles (servKey servCert : String) (n : Nat)
  /-- Line 152, "Error starting server: %v". -/
  | serverStart (err : Error)
  deriving DecidableEq, Repr

/-- The calls `main` makes that have an effect outside `main`. -/
inductive Event where
  | InitFlags
  | Usage
  | LoadConfig (file : String)
  | ParseCommandLine
  | SetLevel (level : Level)
  | DoKeyGeneration (keyFile : String)
  /-- Line 58, `log.Printf("Key pair successfully written to %s", keyFile)`. -/
  | logKeyPairWritten (keyFile : String)
  /-- Line 64, `log.Errorf` about the missing `.conf` file. -/
  | logCertNeedsConf
  | CertGen (genCert : String)
  | CertUsage
  | InitBerkeleyDb (storagePath : String)
  | InitLevelDb (storagePath : String)
  | InitPartyInfo (url : String) (otherNodes : List String) (client : HttpClient) (grpc : Bool)
  | EnclaveInit (db : DataStore) (pubKeyFiles privKeyFiles : List String) (pi : PartyInfo)
      (client : HttpClient) (grpc : Bool)
  | RegisterPublicKeys (pi : PartyInfo) (keys : List Key)
  | ServerInit (enc : Enclave) (port : Int) (ipcPath : String) (grpc : Bool) (grpcJsonport : Int)
      (tls : Bool) (tlsCertFile tlsKeyFile : String)
  | PollPartyInfo (pi : PartyInfo)
  /-- A `log.Fatal*` call, up to the point where it exits. -/
  | logFatal (site : Fatal)
  deriving DecidableEq, Repr

/-- How the process ends. -/
inductive Outcome where
  /-- The call `os.Exit(code)`, directly or inside `log.Fatal*`. -/
  | exit (code : Nat)
  /-- A run-time panic (slicing `args[1:]` of an empty `os.Args`). -/
  | goPanic
  /-- The statement `select {}`: the process serves until it is killed. -/
  | runsForever
  deriving DecidableEq, Repr

/-- A run of `main`: the calls it makes, in order, and how it ends. -/
structure Run where
  trace : List Event
  outcome : Outcome
  deriving DecidableEq, Repr

/-- The process ends here. -/
def halt (o : Outcome) : Run := { trace := [], outcome := o }

/-- One call, then the rest of the run. -/
def emit (e : Event) (rest : Run) : Run := { rest with trace := e :: rest.trace }

/-- A `log.Fatal*` call: the message is logged and the process exits with
status 1. -/
def fatal (site : Fatal) : Run := emit (.logFatal site) (halt (.exit 1))

/-! ## `main` -/

/-- Lines 37-49: the `switch` on the verbosity; `level` starts as the zero
value of `log.Level` and no case has a `default`. -/
def logLevel (verbosity : Int) : Level :=
  let level : Level := 0
  if verbosity = 0 then FatalLevel
  else if verbosity = 1 then WarnLevel
  else if verbosity = 2 then InfoLevel
  else if verbosity = 3 then DebugLevel
  else level

/-- Lines 136-157: TLS file names, `server.Init`, `pi.PollPartyInfo`,
`select {}`. -/
def startServer (w : World) (port : Int) (ipcPath : String) (grpc : Bool) (pi : PartyInfo)
    (enc : Enclave) : Run :=
  let c := w.config
  let tls := c.Tls
  let serve (tlsCertFile tlsKeyFile : String) : Run :=
    let grpcJsonport := c.GrpcJsonPort
    emit (.ServerInit enc port ipcPath grpc grpcJsonport tls tlsCertFile tlsKeyFile)
      (match w.ServerInit enc port ipcPath grpc grpcJsonport tls tlsCertFile tlsKeyFile with
        | some err => fatal (.serverStart err)
        | none => emit (.PollPartyInfo pi) (halt .runsForever))
  if tls then
    let servCert := c.TlsServerCert
    let servKey := c.TlsServerKey
    if len servCert ≠ len servKey ∨ len servCert ≤ 0 then
      fatal (.tlsFiles servKey servCert (len servCert))
    else
      serve (w.pathJoin c.WorkDir servCert) (w.pathJoin c.WorkDir servKey)
  else
    serve "" ""

/-- Lines 109-134: the key-file lists, `enclave.Init`,
`pi.RegisterPublicKeys`. -/
def loadKeys (w : World) (db : DataStore) (port : Int) (ipcPath : String) (grpc : Bool)
    (pi : PartyInfo) : Run :=
  let c := w.config
  let workDir := c.WorkDir
  let privKeys := c.PrivateKeys
  let pubKeys := c.PublicKeys
  let pubKeyFiles := stringsSplit pubKeys ','
  let privKeyFiles := stringsSplit privKeys ','
  if privKeyFiles.length ≠ pubKeyFiles.length then
    fatal .keyCountMismatch
  else if privKeyFiles.length = 0 then
    fatal .noKeyFiles
  else
    let privKeyFiles := privKeyFiles.map (fun keyFile => w.pathJoin workDir keyFile)
    let pubKeyFiles := pubKeyFiles.map (fun keyFile => w.pathJoin workDir keyFile)
    let enc := w.EnclaveInit db pubKeyFiles privKeyFiles pi httpDefaultClient grpc
    emit (.EnclaveInit db pubKeyFiles privKeyFiles pi httpDefaultClient grpc)
      (emit (.RegisterPublicKeys pi enc.PubKeys)
        (startServer w port ipcPath grpc pi enc))

/-- Lines 93-107: URL and port checks, the polling client,
`api.InitPartyInfo`. -/
def initDirectory (w : World) (db : DataStore) (ipcPath : String) : Run :=
  let c := w.config
  let otherNodes := c.OtherNodes
  let url := c.Url
  if url = "" then
    fatal .urlMissing
  else
    let port := c.Port
    if port < 0 then
      fatal .portMissing
    else
      let httpClient : HttpClient := { Timeout := timeSecond * 10 }
      let grpc := c.UseGRPC
      let pi := w.InitPartyInfo url otherNodes httpClient grpc
      emit (.InitPartyInfo url otherNodes httpClient grpc)
        (loadKeys w db port ipcPath grpc pi)

/-- Lines 75-91: the storage backend. -/
def initStorage (w : World) : Run :=
  let c := w.config
  let workDir := c.WorkDir
  let dbStorage := c.Storage
  let ipcFile := c.Socket
  let storagePath := w.pathJoin workDir dbStorage
  let ipcPath := w.pathJoin workDir ipcFile
  let continue_ (r : DataStore × Option Error) : Run :=
    match r with
    | (_, some err) => fatal (.storage err)
    | (db, none) => initDirectory w db ipcPath
  if c.BerkeleyDb then
    emit (.InitBerkeleyDb storagePath) (continue_ (w.InitBerkeleyDb storagePath))
  else
    emit (.InitLevelDb storagePath) (continue_ (w.InitLevelDb storagePath))

/-- Lines 61-73: the certificate-generation utility. -/
def generateCert (w : World) : Run :=
  let genCert := w.config.GenerateCert
  if genCert ≠ "" then
    if !stringsContains genCert ".conf" then
      emit .logCertNeedsConf (halt (.exit 1))
    else
      emit (.CertGen genCert)
        (match w.CertGen genCert with
          | some _ => emit .CertUsage (halt (.exit 0))
          | none => halt (.exit 0))
  else
    initStorage w

/-- Lines 52-60: the key-generation utility. -/
def generateKeys (w : World) : Run :=
  let keyFile := w.config.GenerateKeys
  if keyFile ≠ "" then
    emit (.DoKeyGeneration keyFile)
      (match w.DoKeyGeneration keyFile with
        | some err => fatal (.keyGeneration err)
        | none => emit (.logKeyPairWritten keyFile) (halt (.exit 0)))
  else
    generateCert w

/-- Lines 35-50 and on: `config.ParseCommandLine`, the log level, then the
rest of `main`. -/
def configured (w : World) : Run :=
  emit .ParseCommandLine
    (emit (.SetLevel (logLevel w.config.Verbosity))
      (generateKeys w))

/-- Lines 26-34: the loop over `args[1:]` that loads the first argument naming
a `.conf` file and then breaks; `k` is what follows the loop. -/
def loadConfigLoop (w : World) (k : Run) : List String → Run
  | [] => k
  | arg :: rest =>
    if stringsContains arg ".conf" && !stringsContains arg "generate-cert" then
      emit (.LoadConfig arg)
        (match w.LoadConfig arg with
          | some err => fatal (.loadConfig err)
          | none => k)
    else
      loadConfigLoop w k rest

/-- Lines 160-163: `exit`. -/
def exit : Run := emit .Usage (halt (.exit 1))

/-- Lines 17-158: `main`. -/
def main (w : World) : Run :=
  emit .InitFlags
    (match w.args with
      | [_] => exit
      | [] => halt .goPanic
      | _ :: rest => loadConfigLoop w (configured w) rest)

/-! ## The locals of `main`, as functions of the world -/

/-- The local `storagePath` (line 78). -/
def storagePath (w : World) : String := w.pathJoin w.config.WorkDir w.config.Storage

/-- The local `ipcPath` (line 79). -/
def ipcPath (w : World) : String := w.pathJoin w.config.WorkDir w.config.Socket

/-- The storage constructor `main` calls (lines 82-86). -/
def storageCall (w : World) : Event :=
  if w.config.BerkeleyDb then .InitBerkeleyDb (storagePath w) else .InitLevelDb (storagePath w)

/-- What the storage constructor returns: the locals `db, err`. -/
def storageResult (w : World) : DataStore × Option Error :=
  if w.config.BerkeleyDb then w.InitBerkeleyDb (storagePath w) else w.InitLevelDb (storagePath w)

/-- The local `httpClient` (lines 102-104). -/
def pollClient : HttpClient := { Timeout := timeSecond * 10 }

/-- The call of line 107. -/
def partyCall (w : World) : Event :=
  .InitPartyInfo w.config.Url w.config.OtherNodes pollClient w.config.UseGRPC

/-- The local `pi` (line 107). -/
def partyInfo (w : World) : PartyInfo :=
  w.InitPartyInfo w.config.Url w.config.OtherNodes pollClient w.config.UseGRPC

/-- The local `pubKeyFiles` after the loop of lines 127-130. -/
def pubKeyFiles (w : World) : List String :=
  (stringsSplit w.config.PublicKeys ',').map (fun keyFile => w.pathJoin w.config.WorkDir keyFile)

/-- The local `privKeyFiles` after the loop of lines 122-124. -/
def privKeyFiles (w : World) : List String :=
  (stringsSplit w.config.PrivateKeys ',').map (fun keyFile => w.pathJoin w.config.WorkDir keyFile)

/-- The call of line 132. -/
def enclaveCall (w : World) : Event :=
  .EnclaveInit (storageResult w).1 (pubKeyFiles w) (privKeyFiles w) (partyInfo w)
    httpDefaultClient w.config.UseGRPC

/-- The local `enc` (line 132). -/
def enclaveOf (w : World) : Enclave :=
  w.EnclaveInit (storageResult w).1 (pubKeyFiles w) (privKeyFiles w) (partyInfo w)
    httpDefaultClient w.config.UseGRPC

/-- The call of line 134. -/
def registerCall (w : World) : Event := .RegisterPublicKeys (partyInfo w) (enclaveOf w).PubKeys

/-- The local `tlsCertFile` at line 150. -/
def tlsCertFile (w : World) : String :=
  if w.config.Tls then w.pathJoin w.config.WorkDir w.config.TlsServerCert else ""

/-- The local `tlsKeyFile` at line 150. -/
def tlsKeyFile (w : World) : String :=
  if w.config.Tls then w.pathJoin w.config.WorkDir w.config.TlsServerKey else ""

/-- The call of line 150. -/
def serverCall (w : World) : Event :=
  .ServerInit (enclaveOf w) w.config.Port (ipcPath w) w.config.UseGRPC w.config.GrpcJsonPort
    w.config.Tls (tlsCertFile w) (tlsKeyFile w)

/-- The error of line 150. -/
def serverResult (w : World) : Option Error :=
  w.ServerInit (enclaveOf w) w.config.Port (ipcPath w) w.config.UseGRPC w.config.GrpcJsonPort
    w.config.Tls (tlsCertFile w) (tlsKeyFile w)

/-- The TLS check of line 142 rejects the certificate and key names. -/
def tlsRejected (w : World) : Prop :=
  w.config.Tls = true ∧
    (len w.config.TlsServerCert ≠ len w.config.TlsServerKey ∨ len w.config.TlsServerCert ≤ 0)

/-- The calls that precede `config.ParseCommandLine` in a run that gets
there: `loaded` is the configuration file that was loaded, if any. -/
def preamble (loaded : Option String) : List Event :=
  match loaded with
  | none => [.InitFlags]
  | some arg => [.InitFlags, .LoadConfig arg]

/-- The file named by `loaded`, if any, was loaded without error. -/
def IsPreamble (w : World) (loaded : Option String) : Prop :=
  ∀ arg, loaded = some arg → w.LoadConfig arg = none

/-- The calls of a run up to and including `log.SetLevel` (line 50). -/
def settingsRead (w : World) (loaded : Option String) : List Event :=
  preamble loaded ++ [.ParseCommandLine, .SetLevel (logLevel w.config.Verbosity)]

/-- No utility is selected, the storage is open, and the URL and the port
pass the checks of lines 95-101. -/
def NormalChecks (w : World) : Prop :=
  w.config.GenerateKeys = "" ∧ w.config.GenerateCert = "" ∧ (storageResult w).2 = none ∧
    w.config.Url ≠ "" ∧ 0 ≤ w.config.Port

/-- The runs of `main`, path by path: each constructor is one path through the
function, with the conditions under which it is taken. -/
inductive Path (w : World) : Run → Prop
  | noArguments : Path w ⟨[.InitFlags, .Usage], .exit 1⟩
  | emptyArgs : Path w ⟨[.InitFlags], .goPanic⟩
  | loadConfigFailed (arg : String) (err : Error) (hload : w.LoadConfig arg = some err) :
      Path w ⟨[.InitFlags, .LoadConfig arg, .logFatal (.loadConfig err)], .exit 1⟩
  | keyGenerationFailed (loaded : Option String) (err : Error) (hpre : IsPreamble w loaded)
      (hkeys : w.config.GenerateKeys ≠ "")
      (hgen : w.DoKeyGeneration w.config.GenerateKeys = some err) :
      Path w ⟨settingsRead w loaded ++ [.DoKeyGeneration w.config.GenerateKeys,
        .logFatal (.keyGeneration err)], .exit 1⟩
  | keysGenerated (loaded : Option String) (hpre : IsPreamble w loaded)
      (hkeys : w.config.GenerateKeys ≠ "")
      (hgen : w.DoKeyGeneration w.config.GenerateKeys = none) :
      Path w ⟨settingsRead w loaded ++ [.DoKeyGeneration w.config.GenerateKeys,
        .logKeyPairWritten w.config.GenerateKeys], .exit 0⟩
  | certNeedsConf (loaded : Option String) (hpre : IsPreamble w loaded)
      (hkeys : w.config.GenerateKeys = "") (hcert : w.config.GenerateCert ≠ "")
      (hconf : stringsContains w.config.GenerateCert ".conf" = false) :
      Path w ⟨settingsRead w loaded ++ [.logCertNeedsConf], .exit 1⟩
  | certGenFailed (loaded : Option String) (err : Error) (hpre : IsPreamble w loaded)
      (hkeys : w.config.GenerateKeys = "") (hcert : w.config.GenerateCert ≠ "")
      (hconf : stringsContains w.config.GenerateCert ".conf" = true)
      (hgen : w.CertGen w.config.GenerateCert = some err) :
      Path w ⟨settingsRead w loaded ++ [.CertGen w.config.GenerateCert, .CertUsage], .exit 0⟩
  | certGenerated (loaded : Option String) (hpre : IsPreamble w loaded)
      (hkeys : w.config.GenerateKeys = "") (hcert : w.config.GenerateCert ≠ "")
      (hconf : stringsContains w.config.GenerateCert ".conf" = true)
      (hgen : w.CertGen w.config.GenerateCert = none) :
      Path w ⟨settingsRead w loaded ++ [.CertGen w.config.GenerateCert], .exit 0⟩
  | storageFailed (loaded : Option String) (err : Error) (hpre : IsPreamble w loaded)
      (hkeys : w.config.GenerateKeys = "") (hcert : w.config.GenerateCert = "")
      (hdb : (storageResult w).2 = some err) :
      Path w ⟨settingsRead w loaded ++ [storageCall w, .logFatal (.storage err)], .exit 1⟩
  | urlMissing (loaded : Option String) (hpre : IsPreamble w loaded)
      (hkeys : w.config.GenerateKeys = "") (hcert : w.config.GenerateCert = "")
      (hdb : (storageResult w).2 = none) (hurl : w.config.Url = "") :
      Path w ⟨settingsRead w loaded ++ [storageCall w, .logFatal .urlMissing], .exit 1⟩
  | portMissing (loaded : Option String) (hpre : IsPreamble w loaded)
      (hkeys : w.config.GenerateKeys = "") (hcert : w.config.GenerateCert = "")
      (hdb : (storageResult w).2 = none) (hurl : w.config.Url ≠ "") (hport : w.config.Port < 0) :
      Path w ⟨settingsRead w loaded ++ [storageCall w, .logFatal .portMissing], .exit 1⟩
  | keyCountMismatch (loaded : Option String) (hpre : IsPreamble w loaded) (hnormal : NormalChecks w)
      (hcount : (stringsSplit w.config.PrivateKeys ',').length ≠
        (stringsSplit w.config.PublicKeys ',').length) :
      Path w ⟨settingsRead w loaded ++ [storageCall w, partyCall w,
        .logFatal .keyCountMismatch], .exit 1⟩
  | tlsRejected (loaded : Option String) (hpre : IsPreamble w loaded) (hnormal : NormalChecks w)
      (hcount : (stringsSplit w.config.PrivateKeys ',').length =
        (stringsSplit w.config.PublicKeys ',').length)
      (htls : tlsRejected w) :
      Path w ⟨settingsRead w loaded ++ [storageCall w, partyCall w, enclaveCall w, registerCall w,
        .logFatal (.tlsFiles w.config.TlsServerKey w.config.TlsServerCert
          (len w.config.TlsServerCert))], .exit 1⟩
  | serverFailed (loaded : Option String) (err : Error) (hpre : IsPreamble w loaded)
      (hnormal : NormalChecks w)
      (hcount : (stringsSplit w.config.PrivateKeys ',').length =
        (stringsSplit w.config.PublicKeys ',').length)
      (htls : ¬ Crux.tlsRejected w) (hserver : serverResult w = some err) :
      Path w ⟨settingsRead w loaded ++ [storageCall w, partyCall w, enclaveCall w, registerCall w,
        serverCall w, .logFatal (.serverStart err)], .exit 1⟩
  | serving (loaded : Option String) (hpre : IsPreamble w loaded) (hnormal : NormalChecks w)
      (hcount : (stringsSplit w.config.PrivateKeys ',').length =
        (stringsSplit w.config.PublicKeys ',').length)
      (htls : ¬ Crux.tlsRejected w) (hserver : serverResult w = none) :
      Path w ⟨settingsRead w loaded ++ [storageCall w, partyCall w, enclaveCall w, registerCall w,
        serverCall w, .PollPartyInfo (partyInfo w)], .runsForever⟩

/-- Is the call `pi.RegisterPublicKeys`? -/
def Event.isRegisterPublicKeys : Event → Bool
  | .RegisterPublicKeys _ _ => true
  | _ => false

/-- Is the call `enclave.Init`? -/
def Event.isEnclaveInit : Event → Bool
  | .EnclaveInit _ _ _ _ _ _ => true
  | _ => false

/-- Is the call `server.Init`? -/
def Event.isServerInit : Event → Bool
  | .ServerInit _ _ _ _ _ _ _ _ => true
  | _ => false

/-- Is the call `pi.PollPartyInfo`? -/
def Event.isPollPartyInfo : Event → Bool
  | .PollPartyInfo _ => true
  | _ => false

/-- Is the call `log.SetLevel`? -/
def Event.isSetLevel : Event → Bool
  | .SetLevel _ => true
  | _ => false

/-- Is the call one of the two storage constructors? -/
def Event.isStorageInit : Event → Bool
  | .InitBerkeleyDb _ => true
  | .InitLevelDb _ => true
  | _ => false

/-- Does the call initialise a part of the node: the storage, the party
directory, the enclave or the server? -/
def Event.startsNode : Event → Bool
  | .InitBerkeleyDb _ => true
  | .InitLevelDb _ => true
  | .InitPartyInfo _ _ _ _ => true
  | .EnclaveInit _ _ _ _ _ _ => true
  | .RegisterPublicKeys _ _ => true
  | .ServerInit _ _ _ _ _ _ _ _ => true
  | .PollPartyInfo _ => true
  | _ => false

/-- The world with the `BerkeleyDb` flag set to `b` and nothing else changed. -/
def withBackend (w : World) (b : Bool) : World :=
  { w with config := { w.config with BerkeleyDb := b } }

/-- Two runs agree on how they end and on every call other than the storage
constructor calls. -/
def SameApartFromStorage (r₁ r₂ : Run) : Prop :=
  r₁.outcome = r₂.outcome ∧
    r₁.trace.filter (fun e => !e.isStorageInit) = r₂.trace.filter (fun e => !e.isStorageInit)

/-! ## Sample worlds -/

/-- A two-element join for the sample worlds: it agrees with `path.Join` on a
clean directory and a clean relative file name (or the empty name). -/
def sampleJoin (dir file : String) : String :=
  if file = "" then dir else dir ++ "/" ++ file

/-- Settings of a node with two key pairs, LevelDB storage and no TLS. -/
def sampleConfig : Config :=
  { Verbosity := 1, GenerateKeys := "", GenerateCert := "", WorkDir := "/data", Storage := "db",
    Socket := "crux.ipc", BerkeleyDb := false, OtherNodes := ["http://peer:9000/"],
    Url := "http://self:9000/", Port := 9000, UseGRPC := false, PrivateKeys := "a.key,b.key",
    PublicKeys := "a.pub,b.pub", Tls := false, TlsServerCert := "", TlsServerKey := "",
    GrpcJsonPort := 9001 }

/-- A world in which every collaborator succeeds: `crux node.conf`. -/
def sampleWorld : World :=
  { args := ["crux", "node.conf"], config := sampleConfig, pathJoin := sampleJoin,
    LoadConfig := fun _ => none, DoKeyGeneration := fun _ => none, CertGen := fun _ => none,
    InitBerkeleyDb := fun _ => (⟨1⟩, none), InitLevelDb := fun _ => (⟨2⟩, none),
    InitPartyInfo := fun _ _ _ _ => ⟨7⟩,
    EnclaveInit := fun _ pubs _ _ _ _ => ⟨3, pubs.map (fun p => [p.length])⟩,
    ServerInit := fun _ _ _ _ _ _ _ _ => none }

/-- The sample node with two public key files and one private key file. -/
def mismatchWorld : World :=
  { sampleWorld with config := { sampleConfig with PrivateKeys := "a.key" } }

/-- The sample node with no key files configured. -/
def noKeysWorld : World :=
  { sampleWorld with config := { sampleConfig with PrivateKeys := "", PublicKeys := "" } }

/-- The key-generation utility, `crux --generate-keys=node`. -/
def keyGenWorld : World :=
  { sampleWorld with
    args := ["crux", "--generate-keys=node"]
    config := { sampleConfig with GenerateKeys := "node" } }

/-- The key-generation utility with two public key files and one private key
file configured. -/
def keyGenMismatchWorld : World :=
  { keyGenWorld with
    config := { sampleConfig with GenerateKeys := "node", PrivateKeys := "a.key" } }

/-- The sample node with verbosity 0. -/
def quietWorld : World :=
  { sampleWorld with config := { sampleConfig with Verbosity := 0 } }

/-- The sample node with verbosity 7. -/
def loudWorld : World :=
  { sampleWorld with config := { sampleConfig with Verbosity := 7 } }

/-- The sample node with the BerkeleyDb flag set. -/
def berkeleyWorld : World :=
  { sampleWorld with config := { sampleConfig with BerkeleyDb := true } }

/-- The certificate utility with a failing `enclave.CertGen`. -/
def certFailWorld : World :=
  { sampleWorld with
    args := ["crux", "--generate-cert=certs.conf"]
    config := { sampleConfig with GenerateCert := "certs.conf" }
    CertGen := fun _ => some "cannot write certificate" }

/-- The sample node with a storage backend that fails to open. -/
def storageFailWorld : World :=
  { sampleWorld with InitLevelDb := fun _ => (⟨0⟩, some "resource temporarily unavailable") }

/-- The sample node with two storage backends that open the same store. -/
def oneStoreWorld : World :=
  { sampleWorld with InitBerkeleyDb := fun _ => (⟨2⟩, none) }

/-- The sample node with TLS on and certificate and key names of different
lengths. -/
def tlsWorld : World :=
  { sampleWorld with
    config := { sampleConfig with Tls := true, TlsServerCert := "cert.pem", TlsServerKey := "key.pem" } }

/-! ## The paths through `main` -/

/-- The paths through lines 136-157. -/
theorem startServer_paths (w : World) :
    (tlsRejected w ∧
      startServer w w.config.Port (ipcPath w) w.config.UseGRPC (partyInfo w) (enclaveOf w) =
        ⟨[.logFatal (.tlsFiles w.config.TlsServerKey w.config.TlsServerCert
            (len w.config.TlsServerCert))], .exit 1⟩) ∨
    (¬ tlsRejected w ∧ ∃ err, serverResult w = some err ∧
      startServer w w.config.Port (ipcPath w) w.config.UseGRPC (partyInfo w) (enclaveOf w) =
        ⟨[serverCall w, .logFatal (.serverStart err)], .exit 1⟩) ∨
    (¬ tlsRejected w ∧ serverResult w = none ∧
      startServer w w.config.Port (ipcPath w) w.config.UseGRPC (partyInfo w) (enclaveOf w) =
        ⟨[serverCall w, .PollPartyInfo (partyInfo w)], .runsForever⟩) := by
  have hres : serverResult w = w.ServerInit (enclaveOf w) w.config.Port (ipcPath w)
      w.config.UseGRPC w.config.GrpcJsonPort w.config.Tls (tlsCertFile w) (tlsKeyFile w) := rfl
  unfold startServer tlsRejected
  cases ht : w.config.Tls with
  | true =>
    by_cases hr : len w.config.TlsServerCert ≠ len w.config.TlsServerKey ∨
        len w.config.TlsServerCert ≤ 0
    · left
      simp only [ht, hr, if_true, true_and, and_self, fatal, emit, halt]
    · right
      simp only [tlsCertFile, tlsKeyFile, ht, if_true] at hres
      cases hs : serverResult w with
      | none =>
        right
        rw [hres] at hs
        simp only [hr, if_false, hs, serverCall, tlsCertFile, tlsKeyFile, ht, if_true, fatal,
          emit, halt, true_and, not_false_eq_true, and_self]
      | some err =>
        left
        rw [hres] at hs
        simp only [hr, if_false, hs, serverCall, tlsCertFile, tlsKeyFile, ht, if_true, fatal,
          emit, halt, true_and, not_false_eq_true, and_self]
        exact ⟨err, rfl, rfl⟩
  | false =>
    right
    simp only [tlsCertFile, tlsKeyFile, ht] at hres
    simp only [Bool.false_eq_true, if_false] at hres
    cases hs : serverResult w with
    | none =>
      right
      rw [hres] at hs
      simp only [hs, serverCall, tlsCertFile, tlsKeyFile, ht, Bool.false_eq_true, if_false,
        fatal, emit, halt, false_and, not_false_eq_true, and_self]
    | some err =>
      left
      rw [hres] at hs
      simp only [hs, serverCall, tlsCertFile, tlsKeyFile, ht, Bool.false_eq_true, if_false,
        fatal, emit, halt, false_and, not_false_eq_true, true_and]
      exact ⟨err, rfl, rfl⟩

/-- Every run of the scan of `strings.Split` yields at least one field. -/
theorem splitAux_length_pos (sep : Char) (cs cur : List Char) :
    1 ≤ (splitAux sep cs cur).length := by
  induction cs generalizing cur with
  | nil => simp [splitAux]
  | cons c cs ih =>
    unfold splitAux
    split_ifs
    · simp
    · exact ih _

/-- The paths through lines 109-157. -/
theorem loadKeys_paths (w : World) :
    ((stringsSplit w.config.PrivateKeys ',').length ≠ (stringsSplit w.config.PublicKeys ',').length ∧
      loadKeys w (storageResult w).1 w.config.Port (ipcPath w) w.config.UseGRPC (partyInfo w) =
        ⟨[.logFatal .keyCountMismatch], .exit 1⟩) ∨
    ((stringsSplit w.config.PrivateKeys ',').length = (stringsSplit w.config.PublicKeys ',').length ∧
      loadKeys w (storageResult w).1 w.config.Port (ipcPath w) w.config.UseGRPC (partyInfo w) =
        emit (enclaveCall w) (emit (registerCall w)
          (startServer w w.config.Port (ipcPath w) w.config.UseGRPC (partyInfo w) (enclaveOf w)))) := by
  unfold loadKeys
  by_cases hl : (stringsSplit w.config.PrivateKeys ',').length =
      (stringsSplit w.config.PublicKeys ',').length
  · right
    have hpos : (stringsSplit w.config.PrivateKeys ',').length ≠ 0 :=
      Nat.ne_of_gt (splitAux_length_pos ',' _ [])
    refine ⟨hl, ?_⟩
    simp only []
    rw [if_neg (not_not.mpr hl), if_neg hpos]
    rfl
  · left
    refine ⟨hl, ?_⟩
    simp only []
    rw [if_pos hl]
    rfl

/-- The paths through lines 75-157, the normal start-up. -/
theorem initStorage_paths (w : World) :
    (∃ err, (storageResult w).2 = some err ∧
      initStorage w = ⟨[storageCall w, .logFatal (.storage err)], .exit 1⟩) ∨
    ((storageResult w).2 = none ∧ w.config.Url = "" ∧
      initStorage w = ⟨[storageCall w, .logFatal .urlMissing], .exit 1⟩) ∨
    ((storageResult w).2 = none ∧ w.config.Url ≠ "" ∧ w.config.Port < 0 ∧
      initStorage w = ⟨[storageCall w, .logFatal .portMissing], .exit 1⟩) ∨
    ((storageResult w).2 = none ∧ w.config.Url ≠ "" ∧ 0 ≤ w.config.Port ∧
      (stringsSplit w.config.PrivateKeys ',').length ≠ (stringsSplit w.config.PublicKeys ',').length ∧
      initStorage w = ⟨[storageCall w, partyCall w, .logFatal .keyCountMismatch], .exit 1⟩) ∨
    ((storageResult w).2 = none ∧ w.config.Url ≠ "" ∧ 0 ≤ w.config.Port ∧
      (stringsSplit w.config.PrivateKeys ',').length = (stringsSplit w.config.PublicKeys ',').length ∧
      tlsRejected w ∧
      initStorage w = ⟨[storageCall w, partyCall w, enclaveCall w, registerCall w,
        .logFatal (.tlsFiles w.config.TlsServerKey w.config.TlsServerCert
          (len w.config.TlsServerCert))], .exit 1⟩) ∨
    ((storageResult w).2 = none ∧ w.config.Url ≠ "" ∧ 0 ≤ w.config.Port ∧
      (stringsSplit w.config.PrivateKeys ',').length = (stringsSplit w.config.PublicKeys ',').length ∧
      ¬ tlsRejected w ∧ ∃ err, serverResult w = some err ∧
      initStorage w = ⟨[storageCall w, partyCall w, enclaveCall w, registerCall w, serverCall w,
        .logFatal (.serverStart err)], .exit 1⟩) ∨
    ((storageResult w).2 = none ∧ w.config.Url ≠ "" ∧ 0 ≤ w.config.Port ∧
      (stringsSplit w.config.PrivateKeys ',').length = (stringsSplit w.config.PublicKeys ',').length ∧
      ¬ tlsRejected w ∧ serverResult w = none ∧
      initStorage w = ⟨[storageCall w, partyCall w, enclaveCall w, registerCall w, serverCall w,
        .PollPartyInfo (partyInfo w)], .runsForever⟩) := by
  have hstage : initStorage w = emit (storageCall w)
      (match storageResult w with
        | (_, some err) => fatal (.storage err)
        | (db, none) => initDirectory w db (ipcPath w)) := by
    unfold initStorage storageCall storageResult
    cases hb : w.config.BerkeleyDb <;> simp [hb, storagePath, ipcPath]
  rw [hstage]
  rcases hres : storageResult w with ⟨db, _ | err⟩
  swap
  · exact Or.inl ⟨err, rfl, rfl⟩
  right
  have hdb : db = (storageResult w).1 := by rw [hres]
  simp only [true_and]
  by_cases hu : w.config.Url = ""
  · left
    exact ⟨hu, by simp only [initDirectory, hu, if_true, fatal, emit, halt]⟩
  right
  by_cases hp : w.config.Port < 0
  · left
    exact ⟨hu, hp, by simp only [initDirectory, hu, hp, if_true, if_false, fatal, emit, halt]⟩
  right
  have hdir : initDirectory w db (ipcPath w) = emit (partyCall w)
      (loadKeys w (storageResult w).1 w.config.Port (ipcPath w) w.config.UseGRPC (partyInfo w)) := by
    simp only [initDirectory, hu, hp, if_false, hdb]
    rfl
  simp only [hdir]
  have hp' : 0 ≤ w.config.Port := not_lt.mp hp
  rcases loadKeys_paths w with ⟨hl, hk⟩ | ⟨hl, hk⟩
  · left
    exact ⟨hu, hp', hl, by rw [hk]; rfl⟩
  right
  rw [hk]
  rcases startServer_paths w with ⟨ht, hs⟩ | ⟨ht, err, he, hs⟩ | ⟨ht, he, hs⟩
  · left
    exact ⟨hu, hp', hl, ht, by rw [hs]; rfl⟩
  · right; left
    exact ⟨hu, hp', hl, ht, err, he, by rw [hs]; rfl⟩
  · right; right
    exact ⟨hu, hp', hl, ht, he, by rw [hs]; rfl⟩

/-- The paths through lines 52-73, the two utilities, and the hand-over to
the normal start-up. -/
theorem generateKeys_paths (w : World) :
    (w.config.GenerateKeys ≠ "" ∧ ∃ err, w.DoKeyGeneration w.config.GenerateKeys = some err ∧
      generateKeys w = ⟨[.DoKeyGeneration w.config.GenerateKeys,
        .logFatal (.keyGeneration err)], .exit 1⟩) ∨
    (w.config.GenerateKeys ≠ "" ∧ w.DoKeyGeneration w.config.GenerateKeys = none ∧
      generateKeys w = ⟨[.DoKeyGeneration w.config.GenerateKeys,
        .logKeyPairWritten w.config.GenerateKeys], .exit 0⟩) ∨
    (w.config.GenerateKeys = "" ∧ w.config.GenerateCert ≠ "" ∧
      stringsContains w.config.GenerateCert ".conf" = false ∧
      generateKeys w = ⟨[.logCertNeedsConf], .exit 1⟩) ∨
    (w.config.GenerateKeys = "" ∧ w.config.GenerateCert ≠ "" ∧
      stringsContains w.config.GenerateCert ".conf" = true ∧
      (∃ err, w.CertGen w.config.GenerateCert = some err) ∧
      generateKeys w = ⟨[.CertGen w.config.GenerateCert, .CertUsage], .exit 0⟩) ∨
    (w.config.GenerateKeys = "" ∧ w.config.GenerateCert ≠ "" ∧
      stringsContains w.config.GenerateCert ".conf" = true ∧
      w.CertGen w.config.GenerateCert = none ∧
      generateKeys w = ⟨[.CertGen w.config.GenerateCert], .exit 0⟩) ∨
    (w.config.GenerateKeys = "" ∧ w.config.GenerateCert = "" ∧
      generateKeys w = initStorage w) := by
  unfold generateKeys
  by_cases hk : w.config.GenerateKeys = ""
  · simp only [hk, ne_eq, not_true_eq_false, if_false, false_and, false_or, true_and]
    unfold generateCert
    by_cases hc : w.config.GenerateCert = ""
    · simp only [hc, ne_eq, not_true_eq_false, if_false, false_and, false_or, true_and]
    · simp only [hc, ne_eq, not_false_eq_true, if_true, false_and, or_false, true_and]
      cases hconf : stringsContains w.config.GenerateCert ".conf" with
      | false => left; exact ⟨rfl, rfl⟩
      | true =>
        right
        cases hg : w.CertGen w.config.GenerateCert with
        | none => right; exact ⟨rfl, rfl, rfl⟩
        | some err => left; exact ⟨rfl, ⟨err, rfl⟩, rfl⟩
  · simp only [hk, ne_eq, not_false_eq_true, if_true, false_and, or_false, true_and]
    cases hg : w.DoKeyGeneration w.config.GenerateKeys with
    | none => right; exact ⟨rfl, rfl⟩
    | some err => left; exact ⟨err, rfl, rfl⟩

/-- The scan of the arguments either loads no file, or loads one and fails,
or loads one and goes on. -/
theorem loadConfigLoop_shape (w : World) (k : Run) (l : List String) :
    loadConfigLoop w k l = k ∨
    (∃ arg err, arg ∈ l ∧ w.LoadConfig arg = some err ∧
      loadConfigLoop w k l = emit (.LoadConfig arg) (fatal (.loadConfig err))) ∨
    (∃ arg, arg ∈ l ∧ w.LoadConfig arg = none ∧
      loadConfigLoop w k l = emit (.LoadConfig arg) k) := by
  induction l with
  | nil => exact Or.inl rfl
  | cons a rest ih =>
    unfold loadConfigLoop
    split_ifs with h
    · cases hl : w.LoadConfig a with
      | none => exact Or.inr (Or.inr ⟨a, List.mem_cons_self _ _, hl, rfl⟩)
      | some err => exact Or.inr (Or.inl ⟨a, err, List.mem_cons_self _ _, hl, rfl⟩)
    · rcases ih with h | ⟨x, e, hx, hl, h⟩ | ⟨x, hx, hl, h⟩
      · exact Or.inl h
      · exact Or.inr (Or.inl ⟨x, e, List.mem_cons_of_mem _ hx, hl, h⟩)
      · exact Or.inr (Or.inr ⟨x, List.mem_cons_of_mem _ hx, hl, h⟩)

/-- The paths through lines 19-50: three early ends, or the settings are
read and the run continues with line 52. -/
theorem main_shape (w : World) :
    main w = ⟨[.InitFlags, .Usage], .exit 1⟩ ∨
    main w = ⟨[.InitFlags], .goPanic⟩ ∨
    (∃ arg err, w.LoadConfig arg = some err ∧
      main w = ⟨[.InitFlags, .LoadConfig arg, .logFatal (.loadConfig err)], .exit 1⟩) ∨
    (∃ loaded, IsPreamble w loaded ∧
      main w = ⟨preamble loaded ++ .ParseCommandLine :: .SetLevel (logLevel w.config.Verbosity) ::
        (generateKeys w).trace, (generateKeys w).outcome⟩) := by
  unfold main
  rcases hargs : w.args with _ | ⟨a, _ | ⟨b, rest⟩⟩
  · exact Or.inr (Or.inl rfl)
  · exact Or.inl rfl
  · rcases loadConfigLoop_shape w (configured w) (b :: rest) with h | ⟨x, e, _, hl, h⟩ | ⟨x, _, hl, h⟩
    · exact Or.inr (Or.inr (Or.inr ⟨none, fun a ha => Option.noConfusion ha, by simp only [h]; rfl⟩))
    · exact Or.inr (Or.inr (Or.inl ⟨x, e, hl, by simp only [h]; rfl⟩))
    · refine Or.inr (Or.inr (Or.inr ⟨some x, ?_, by simp only [h]; rfl⟩))
      intro a ha
      cases ha
      exact hl

/-- Membership in the calls up to the log level. -/
theorem mem_settingsRead (w : World) (loaded : Option String) (e : Event) :
    e ∈ settingsRead w loaded ↔
      e = .InitFlags ∨ (∃ arg, loaded = some arg ∧ e = .LoadConfig arg) ∨
        e = .ParseCommandLine ∨ e = .SetLevel (logLevel w.config.Verbosity) := by
  cases loaded <;> simp [settingsRead, preamble]

/-- Only the empty string has length zero. -/
theorem len_eq_zero (s : String) : len s = 0 ↔ s = "" := by
  cases s with
  | mk data =>
    simp only [len, String.utf8ByteSize_mk, String.utf8Len_eq_zero]
    constructor
    · intro h; rw [h]
    · intro h; exact congrArg String.data h

/-- The TLS check of line 142 accepts exactly two non-empty names of equal
length. -/
theorem not_tlsRejected_iff (w : World) (ht : w.config.Tls = true) :
    ¬ tlsRejected w ↔
      (w.config.TlsServerCert ≠ "" ∧ w.config.TlsServerKey ≠ "" ∧
        len w.config.TlsServerCert = len w.config.TlsServerKey) := by
  have hc := len_eq_zero w.config.TlsServerCert
  have hk := len_eq_zero w.config.TlsServerKey
  unfold tlsRejected
  constructor
  · intro h
    have h' : ¬ (len w.config.TlsServerCert ≠ len w.config.TlsServerKey ∨
        len w.config.TlsServerCert ≤ 0) := fun hx => h ⟨ht, hx⟩
    have heq : len w.config.TlsServerCert = len w.config.TlsServerKey := by
      by_contra hne; exact h' (Or.inl hne)
    have hpos : len w.config.TlsServerCert ≠ 0 := by
      intro hz; exact h' (Or.inr (Nat.le_of_eq hz))
    refine ⟨fun hx => hpos (hc.mpr hx), fun hx => hpos ?_, heq⟩
    rw [heq]; exact hk.mpr hx
  · rintro ⟨hcert, _, heq⟩ ⟨_, hne | hle⟩
    · exact hne heq
    · exact hcert (hc.mp (Nat.le_zero.mp hle))

/-- Which call the storage constructor call is. -/
theorem eq_storageCall (w : World) (e : Event) :
    e = storageCall w ↔
      (w.config.BerkeleyDb = true ∧ e = .InitBerkeleyDb (storagePath w)) ∨
        (w.config.BerkeleyDb = false ∧ e = .InitLevelDb (storagePath w)) := by
  unfold storageCall
  cases w.config.BerkeleyDb <;> simp

/-- Every run of `main` is one of the paths. -/
theorem main_path (w : World) : Path w (main w) := by
  rcases main_shape w with h | h | ⟨a, e, hl, h⟩ | ⟨loaded, hpre, h⟩
  · rw [h]; exact .noArguments
  · rw [h]; exact .emptyArgs
  · rw [h]; exact .loadConfigFailed a e hl
  rw [h]
  have happ : ∀ (l : List Event), preamble loaded ++ .ParseCommandLine ::
      .SetLevel (logLevel w.config.Verbosity) :: l = settingsRead w loaded ++ l := by
    intro l; simp [settingsRead]
  rw [happ]
  rcases generateKeys_paths w with ⟨hk, err, hg, hr⟩ | ⟨hk, hg, hr⟩ | ⟨hk, hc, hf, hr⟩ |
      ⟨hk, hc, hf, ⟨err, hg⟩, hr⟩ | ⟨hk, hc, hf, hg, hr⟩ | ⟨hk, hc, hr⟩
  · rw [hr]; exact .keyGenerationFailed loaded err hpre hk hg
  · rw [hr]; exact .keysGenerated loaded hpre hk hg
  · rw [hr]; exact .certNeedsConf loaded hpre hk hc hf
  · rw [hr]; exact .certGenFailed loaded err hpre hk hc hf hg
  · rw [hr]; exact .certGenerated loaded hpre hk hc hf hg
  rw [hr]
  rcases initStorage_paths w with ⟨err, hd, hr⟩ | ⟨hd, hu, hr⟩ | ⟨hd, hu, hp, hr⟩ |
      ⟨hd, hu, hp, hl, hr⟩ | ⟨hd, hu, hp, hl, ht, hr⟩ | ⟨hd, hu, hp, hl, ht, err, hs, hr⟩ |
      ⟨hd, hu, hp, hl, ht, hs, hr⟩
  · rw [hr]; exact .storageFailed loaded err hpre hk hc hd
  · rw [hr]; exact .urlMissing loaded hpre hk hc hd hu
  · rw [hr]; exact .portMissing loaded hpre hk hc hd hu hp
  · rw [hr]; exact .keyCountMismatch loaded hpre ⟨hk, hc, hd, hu, hp⟩ hl
  · rw [hr]; exact .tlsRejected loaded hpre ⟨hk, hc, hd, hu, hp⟩ hl ht
  · rw [hr]; exact .serverFailed loaded err hpre ⟨hk, hc, hd, hu, hp⟩ hl ht hs
  · rw [hr]; exact .serving loaded hpre ⟨hk, hc, hd, hu, hp⟩ hl ht hs

/-- Prefixing the same call keeps two runs in agreement. -/
theorem SameApartFromStorage.emit (e : Event) {r₁ r₂ : Run} (h : SameApartFromStorage r₁ r₂) :
    SameApartFromStorage (emit e r₁) (emit e r₂) := by
  unfold SameApartFromStorage Crux.emit
  simp only [List.filter_cons]
  refine ⟨h.1, ?_⟩
  split_ifs
  · rw [h.2]
  · exact h.2

/-- The scan of the arguments keeps two continuations in agreement. -/
theorem loadConfigLoop_same (w : World) (b₁ b₂ : Bool) (k₁ k₂ : Run)
    (h : SameApartFromStorage k₁ k₂) (l : List String) :
    SameApartFromStorage (loadConfigLoop (withBackend w b₁) k₁ l)
      (loadConfigLoop (withBackend w b₂) k₂ l) := by
  induction l with
  | nil => exact h
  | cons a rest ih =>
    unfold loadConfigLoop
    split_ifs
    · apply SameApartFromStorage.emit
      have hl : (withBackend w b₁).LoadConfig a = w.LoadConfig a := rfl
      have hr : (withBackend w b₂).LoadConfig a = w.LoadConfig a := rfl
      rw [hl, hr]
      cases w.LoadConfig a with
      | none => exact h
      | some err => exact ⟨rfl, rfl⟩
    · exact ih

/-- With the two storage constructors returning the same store and error, the
runs with the flag set and with the flag not set agree apart from the
constructor call. -/
theorem main_same_backend (w : World)
    (h : w.InitBerkeleyDb (storagePath w) = w.InitLevelDb (storagePath w)) :
    SameApartFromStorage (main (withBackend w true)) (main (withBackend w false)) := by
  have hstorage : SameApartFromStorage (initStorage (withBackend w true))
      (initStorage (withBackend w false)) := by
    have h1 : initStorage (withBackend w true) = Crux.emit (.InitBerkeleyDb (storagePath w))
        (match w.InitBerkeleyDb (storagePath w) with
          | (_, some err) => fatal (.storage err)
          | (db, none) => initDirectory w db (ipcPath w)) := rfl
    have h2 : initStorage (withBackend w false) = Crux.emit (.InitLevelDb (storagePath w))
        (match w.InitLevelDb (storagePath w) with
          | (_, some err) => fatal (.storage err)
          | (db, none) => initDirectory w db (ipcPath w)) := rfl
    rw [h1, h2, h]
    exact ⟨rfl, rfl⟩
  have hcert : SameApartFromStorage (generateCert (withBackend w true))
      (generateCert (withBackend w false)) := by
    unfold generateCert
    have hg : ∀ b, (withBackend w b).config.GenerateCert = w.config.GenerateCert := fun _ => rfl
    simp only [hg]
    by_cases hc : w.config.GenerateCert = ""
    · simpa [hc] using hstorage
    · simp only [hc, ne_eq, not_false_eq_true, if_true]
      exact ⟨rfl, rfl⟩
  have hkeys : SameApartFromStorage (generateKeys (withBackend w true))
      (generateKeys (withBackend w false)) := by
    unfold generateKeys
    have hg : ∀ b, (withBackend w b).config.GenerateKeys = w.config.GenerateKeys := fun _ => rfl
    simp only [hg]
    by_cases hc : w.config.GenerateKeys = ""
    · simpa [hc] using hcert
    · simp only [hc, ne_eq, not_false_eq_true, if_true]
      exact ⟨rfl, rfl⟩
  have hconf : SameApartFromStorage (configured (withBackend w true))
      (configured (withBackend w false)) := by
    unfold configured
    exact (hkeys.emit _).emit _
  unfold main
  have ha : ∀ b, (withBackend w b).args = w.args := fun _ => rfl
  simp only [ha]
  apply SameApartFromStorage.emit
  rcases w.args with _ | ⟨a, _ | ⟨b, rest⟩⟩
  · exact ⟨rfl, rfl⟩
  · exact ⟨rfl, rfl⟩
  · exact loadConfigLoop_same w true false _ _ hconf _

/-- Cut a list at an element that satisfies `p`, when no element of the
leading part `front` does: the cut lies in the rest. -/
theorem cut_after_front (p : Event → Bool) (front rest pre post : List Event) (e : Event)
    (hfront : ∀ y ∈ front, p y = false) (he : p e = true)
    (h : front ++ rest = pre ++ e :: post) :
    ∃ mid, pre = front ++ mid ∧ rest = mid ++ e :: post := by
  induction front generalizing pre with
  | nil => exact ⟨pre, rfl, h⟩
  | cons b front ih =>
    cases pre with
    | nil =>
      simp only [List.cons_append, List.nil_append, List.cons.injEq] at h
      have hb := hfront b (List.mem_cons_self _ _)
      rw [h.1, he] at hb
      cases hb
    | cons a pre =>
      simp only [List.cons_append, List.cons.injEq] at h
      obtain ⟨mid, hmid, hrest⟩ :=
        ih pre (fun y hy => hfront y (List.mem_cons_of_mem _ hy)) h.2
      exact ⟨mid, by rw [h.1, hmid]; rfl, hrest⟩

/-! ## The claims -/

/-- C1, as stated, fails: in the key-generation utility with public keys
`a.pub,b.pub` and private keys `a.key` the two settings split into two and one
components, yet the process logs nothing fatal and exits with status 0: the
utility of lines 52-60 ends the run before the key settings are looked at. -/
theorem key_count_mismatch_in_key_generation :
    (stringsSplit keyGenMismatchWorld.config.PublicKeys ',').length ≠
      (stringsSplit keyGenMismatchWorld.config.PrivateKeys ',').length ∧
    main keyGenMismatchWorld =
      { trace := [.InitFlags, .ParseCommandLine, .SetLevel WarnLevel, .DoKeyGeneration "node",
          .logKeyPairWritten "node"],
        outcome := .exit 0 } ∧
    (∀ site, Event.logFatal site ∉ (main keyGenMismatchWorld).trace) ∧
    ¬ ∃ code, code ≠ 0 ∧ (main keyGenMismatchWorld).outcome = .exit code := by
  have hrun : main keyGenMismatchWorld =
      { trace := [.InitFlags, .ParseCommandLine, .SetLevel WarnLevel, .DoKeyGeneration "node",
          .logKeyPairWritten "node"],
        outcome := .exit 0 } := by decide
  refine ⟨by decide, hrun, ?_, ?_⟩
  · intro site
    rw [hrun]
    simp
  · rw [hrun]
    rintro ⟨code, hne, hcode⟩
    cases hcode
    exact hne rfl

/-- C1, amended: whenever `main` calls `enclave.Init`, the public-key-file list
and the private-key-file list it passes have the same length and are, element
by element, `path.Join(workDir, c)` for the comma-separated components `c` of
the PublicKeys and PrivateKeys settings; and a run that reaches the key
settings (it has called `api.InitPartyInfo`) with settings that split into the
same number of components does call `enclave.Init`, with those lists, the
PartyInfo instance `api.InitPartyInfo` returned and `http.DefaultClient`.  If
the two settings split into different numbers of components, `enclave.Init` is
never called and the process does not get to serve; a run that reaches the key
settings then ends right there in the fatal log of line 115, with exit
status 1. -/
theorem key_file_lists (w : World) :
    (∀ db pubs privs pi c g, Event.EnclaveInit db pubs privs pi c g ∈ (main w).trace →
      pubs.length = privs.length ∧
      pubs = (stringsSplit w.config.PublicKeys ',').map
        (fun c => w.pathJoin w.config.WorkDir c) ∧
      privs = (stringsSplit w.config.PrivateKeys ',').map
        (fun c => w.pathJoin w.config.WorkDir c)) ∧
    (∀ url nodes c g, Event.InitPartyInfo url nodes c g ∈ (main w).trace →
      (stringsSplit w.config.PublicKeys ',').length =
        (stringsSplit w.config.PrivateKeys ',').length →
      ∃ db, Event.EnclaveInit db
        ((stringsSplit w.config.PublicKeys ',').map (fun c => w.pathJoin w.config.WorkDir c))
        ((stringsSplit w.config.PrivateKeys ',').map (fun c => w.pathJoin w.config.WorkDir c))
        (w.InitPartyInfo url nodes c g) httpDefaultClient g ∈ (main w).trace) ∧
    ((stringsSplit w.config.PublicKeys ',').length ≠
        (stringsSplit w.config.PrivateKeys ',').length →
      (∀ db pubs privs pi c g, Event.EnclaveInit db pubs privs pi c g ∉ (main w).trace) ∧
      (main w).outcome ≠ .runsForever ∧
      (∀ url nodes c g, Event.InitPartyInfo url nodes c g ∈ (main w).trace →
        (∃ pre, (main w).trace =
          pre ++ [.InitPartyInfo url nodes c g, .logFatal .keyCountMismatch]) ∧
        (main w).outcome = .exit 1)) := by
  have hp := main_path w
  generalize main w = r at hp ⊢
  refine ⟨?_, ?_, fun hne => ⟨?_, ?_, ?_⟩⟩
  · intro db pubs privs pi c g hmem
    cases hp <;>
      simp [mem_settingsRead, eq_storageCall, partyCall, enclaveCall, registerCall, serverCall]
        at hmem
    all_goals
      have hcount : (stringsSplit w.config.PrivateKeys ',').length =
          (stringsSplit w.config.PublicKeys ',').length := by assumption
      obtain ⟨-, rfl, rfl, -⟩ := hmem
      simp [pubKeyFiles, privKeyFiles, hcount]
  · intro url nodes c g hmem heq
    cases hp <;>
      simp [mem_settingsRead, eq_storageCall, partyCall, enclaveCall, registerCall, serverCall]
        at hmem
    case keyCountMismatch loaded hpre hnormal hcount =>
      exact absurd heq.symm hcount
    all_goals
      obtain ⟨rfl, rfl, rfl, rfl⟩ := hmem
      exact ⟨(storageResult w).1, by
        simp [mem_settingsRead, enclaveCall, pubKeyFiles, privKeyFiles, partyInfo]⟩
  · intro db pubs privs pi c g hmem
    cases hp <;>
      simp [mem_settingsRead, eq_storageCall, partyCall, enclaveCall, registerCall, serverCall]
        at hmem
    all_goals
      have hcount : (stringsSplit w.config.PrivateKeys ',').length =
          (stringsSplit w.config.PublicKeys ',').length := by assumption
      exact hne hcount.symm
  · cases hp <;> simp
    have hcount : (stringsSplit w.config.PrivateKeys ',').length =
        (stringsSplit w.config.PublicKeys ',').length := by assumption
    exact hne hcount.symm
  · intro url nodes c g hmem
    cases hp <;>
      simp [mem_settingsRead, eq_storageCall, partyCall, enclaveCall, registerCall, serverCall]
        at hmem
    · rename_i loaded _ _ _
      obtain ⟨rfl, rfl, rfl, rfl⟩ := hmem
      exact ⟨⟨settingsRead w loaded ++ [storageCall w], by simp [partyCall]⟩, rfl⟩
    all_goals
      have hcount : (stringsSplit w.config.PrivateKeys ',').length =
          (stringsSplit w.config.PublicKeys ',').length := by assumption
      exact absurd hcount.symm hne

/-- Two runs.  The sample node with public keys `a.pub,b.pub` and private keys
`a.key`: the run calls `api.InitPartyInfo`, the settings split into two and
one components, and the run ends right after that call in the fatal log of
line 115, with exit status 1.  The sample node with private keys
`a.key,b.key`: the run calls `api.InitPartyInfo` and then `enclave.Init`, with
the two joined lists, which have the same length. -/
theorem key_file_lists_witness :
    Event.InitPartyInfo "http://self:9000/" ["http://peer:9000/"] pollClient false ∈
      (main mismatchWorld).trace ∧
    (stringsSplit "a.pub,b.pub" ',').length ≠ (stringsSplit "a.key" ',').length ∧
    ((∃ pre, (main mismatchWorld).trace =
        pre ++ [.InitPartyInfo "http://self:9000/" ["http://peer:9000/"] pollClient false,
          .logFatal .keyCountMismatch]) ∧
      (main mismatchWorld).outcome = .exit 1) ∧
    Event.InitPartyInfo "http://self:9000/" ["http://peer:9000/"] pollClient false ∈
      (main sampleWorld).trace ∧
    (∃ db, Event.EnclaveInit db ["/data/a.pub", "/data/b.pub"] ["/data/a.key", "/data/b.key"]
      ⟨7⟩ httpDefaultClient false ∈ (main sampleWorld).trace) ∧
    Event.EnclaveInit ⟨2⟩ ["/data/a.pub", "/data/b.pub"] ["/data/a.key", "/data/b.key"] ⟨7⟩
      httpDefaultClient false ∈ (main sampleWorld).trace ∧
    (["/data/a.pub", "/data/b.pub"].length = ["/data/a.key", "/data/b.key"].length ∧
      ["/data/a.pub", "/data/b.pub"] =
        (stringsSplit "a.pub,b.pub" ',').map (fun c => sampleJoin "/data" c) ∧
      ["/data/a.key", "/data/b.key"] =
        (stringsSplit "a.key,b.key" ',').map (fun c => sampleJoin "/data" c)) :=
  ⟨by decide, by decide,
    ((key_file_lists mismatchWorld).2.2 (by decide)).2.2
      "http://self:9000/" ["http://peer:9000/"] pollClient false (by decide),
    by decide,
    (key_file_lists sampleWorld).2.1
      "http://self:9000/" ["http://peer:9000/"] pollClient false (by decide) (by decide),
    by decide,
    (key_file_lists sampleWorld).1 ⟨2⟩ ["/data/a.pub", "/data/b.pub"]
      ["/data/a.key", "/data/b.key"] ⟨7⟩ httpDefaultClient false (by decide)⟩

/-- C2: in every run of `main`, at the point where `server.Init` or
`pi.PollPartyInfo` is called, `enclave.Init` has been called exactly once and
`pi.RegisterPublicKeys` has been called exactly once, on the PartyInfo instance
that was handed to `enclave.Init` and with the `PubKeys` of the enclave that
`enclave.Init` returned; the whole run registers keys exactly once. -/
theorem keys_registered_before_serving (w : World) (pre post : List Event) (e : Event)
    (hrun : (main w).trace = pre ++ e :: post)
    (he : e.isServerInit = true ∨ e.isPollPartyInfo = true) :
    ∃ db pubs privs pi c g,
      pre.filter Event.isEnclaveInit = [.EnclaveInit db pubs privs pi c g] ∧
      pre.filter Event.isRegisterPublicKeys =
        [.RegisterPublicKeys pi (w.EnclaveInit db pubs privs pi c g).PubKeys] ∧
      (main w).trace.filter Event.isRegisterPublicKeys =
        [.RegisterPublicKeys pi (w.EnclaveInit db pubs privs pi c g).PubKeys] := by
  have he' : (e.isServerInit || e.isPollPartyInfo) = true := by
    simpa [Bool.or_eq_true] using he
  have hmem : e ∈ (main w).trace := by rw [hrun]; simp
  have hp := main_path w
  generalize main w = r at hp hrun hmem ⊢
  have hsettings : ∀ loaded, ∀ y ∈ settingsRead w loaded,
      (y.isServerInit || y.isPollPartyInfo) = false ∧ y.isEnclaveInit = false ∧
        y.isRegisterPublicKeys = false := by
    intro loaded y hy
    rw [mem_settingsRead] at hy
    rcases hy with rfl | ⟨a, _, rfl⟩ | rfl | rfl <;> simp [Event.isServerInit, Event.isPollPartyInfo, Event.isEnclaveInit, Event.isRegisterPublicKeys]
  have hstorage : (storageCall w).isServerInit = false ∧ (storageCall w).isPollPartyInfo = false ∧
      (storageCall w).isEnclaveInit = false ∧ (storageCall w).isRegisterPublicKeys = false := by
    unfold storageCall
    split_ifs <;> simp [Event.isServerInit, Event.isPollPartyInfo, Event.isEnclaveInit, Event.isRegisterPublicKeys]
  have key : ∀ (loaded : Option String) (tail : List Event),
      (∀ y ∈ tail, y.isEnclaveInit = false ∧ y.isRegisterPublicKeys = false) →
      (settingsRead w loaded ++ [storageCall w, partyCall w, enclaveCall w, registerCall w]) ++
        tail = pre ++ e :: post →
      ∃ db pubs privs pi c g,
        pre.filter Event.isEnclaveInit = [.EnclaveInit db pubs privs pi c g] ∧
        pre.filter Event.isRegisterPublicKeys =
          [.RegisterPublicKeys pi (w.EnclaveInit db pubs privs pi c g).PubKeys] ∧
        ((settingsRead w loaded ++
            [storageCall w, partyCall w, enclaveCall w, registerCall w]) ++ tail).filter
          Event.isRegisterPublicKeys =
          [.RegisterPublicKeys pi (w.EnclaveInit db pubs privs pi c g).PubKeys] := by
    intro loaded tail htail heq
    have hfront : ∀ y ∈ settingsRead w loaded ++
        [storageCall w, partyCall w, enclaveCall w, registerCall w],
        (y.isServerInit || y.isPollPartyInfo) = false := by
      intro y hy
      rw [List.mem_append] at hy
      rcases hy with hy | hy
      · exact (hsettings loaded y hy).1
      · simp only [List.mem_cons, List.mem_singleton, List.not_mem_nil, or_false] at hy
        rcases hy with rfl | rfl | rfl | rfl
        · simp [hstorage]
        · rfl
        · rfl
        · rfl
    obtain ⟨mid, hpre, hrest⟩ := cut_after_front _ _ tail pre post e hfront he' heq
    have hmid : ∀ y ∈ mid, y.isEnclaveInit = false ∧ y.isRegisterPublicKeys = false := by
      intro y hy
      exact htail y (by rw [hrest]; exact List.mem_append_left _ hy)
    have hset1 : (settingsRead w loaded).filter Event.isEnclaveInit = [] :=
      List.filter_eq_nil_iff.mpr (fun y hy => by simp [(hsettings loaded y hy).2.1])
    have hset2 : (settingsRead w loaded).filter Event.isRegisterPublicKeys = [] :=
      List.filter_eq_nil_iff.mpr (fun y hy => by simp [(hsettings loaded y hy).2.2])
    have hmid1 : mid.filter Event.isEnclaveInit = [] :=
      List.filter_eq_nil_iff.mpr (fun y hy => by simp [(hmid y hy).1])
    have hmid2 : mid.filter Event.isRegisterPublicKeys = [] :=
      List.filter_eq_nil_iff.mpr (fun y hy => by simp [(hmid y hy).2])
    have htail2 : tail.filter Event.isRegisterPublicKeys = [] :=
      List.filter_eq_nil_iff.mpr (fun y hy => by simp [(htail y hy).2])
    refine ⟨(storageResult w).1, pubKeyFiles w, privKeyFiles w, partyInfo w, httpDefaultClient,
      w.config.UseGRPC, ?_, ?_, ?_⟩
    · rw [hpre]
      have h1 : (partyCall w).isEnclaveInit = false := rfl
      have h2 : (enclaveCall w).isEnclaveInit = true := rfl
      have h3 : (registerCall w).isEnclaveInit = false := rfl
      simp only [List.filter_append, hset1, hmid1, List.filter_cons, hstorage, h1, h2, h3,
        List.filter_nil, List.nil_append, List.append_nil, if_true, Bool.false_eq_true,
        if_false]
      rfl
    · rw [hpre]
      have h1 : (partyCall w).isRegisterPublicKeys = false := rfl
      have h2 : (enclaveCall w).isRegisterPublicKeys = false := rfl
      have h3 : (registerCall w).isRegisterPublicKeys = true := rfl
      simp only [List.filter_append, hset2, hmid2, List.filter_cons, hstorage, h1, h2, h3,
        List.filter_nil, List.nil_append, List.append_nil, if_true, Bool.false_eq_true,
        if_false]
      rfl
    · have h1 : (partyCall w).isRegisterPublicKeys = false := rfl
      have h2 : (enclaveCall w).isRegisterPublicKeys = false := rfl
      have h3 : (registerCall w).isRegisterPublicKeys = true := rfl
      simp only [List.filter_append, hset2, htail2, List.filter_cons, hstorage, h1, h2, h3,
        List.filter_nil, List.nil_append, List.append_nil, if_true, Bool.false_eq_true,
        if_false]
      rfl
  cases hp
  case serverFailed loaded err hpre hnormal hcount htls hserver =>
    have h := key loaded [serverCall w, .logFatal (.serverStart err)]
      (by intro y hy; simp at hy; rcases hy with rfl | rfl <;> exact ⟨rfl, rfl⟩)
      (by simpa using hrun)
    simpa using h
  case serving loaded hpre hnormal hcount htls hserver =>
    have h := key loaded [serverCall w, .PollPartyInfo (partyInfo w)]
      (by intro y hy; simp at hy; rcases hy with rfl | rfl <;> exact ⟨rfl, rfl⟩)
      (by simpa using hrun)
    simpa using h
  all_goals
    exfalso
    simp [mem_settingsRead, eq_storageCall, partyCall, enclaveCall, registerCall] at hmem
    casesm* _ ∨ _, _ ∧ _, ∃ _, _
    all_goals
      subst_vars
      simp [Event.isServerInit, Event.isPollPartyInfo] at he'

/-- The sample run, cut at its `server.Init` call: the keys of the one enclave
have been registered once, on the instance the enclave was given. -/
theorem keys_registered_before_serving_witness :
    ∃ db pubs privs pi c g,
      [Event.InitFlags, .LoadConfig "node.conf", .ParseCommandLine, .SetLevel WarnLevel,
        .InitLevelDb "/data/db",
        .InitPartyInfo "http://self:9000/" ["http://peer:9000/"] pollClient false,
        .EnclaveInit ⟨2⟩ ["/data/a.pub", "/data/b.pub"] ["/data/a.key", "/data/b.key"] ⟨7⟩
          httpDefaultClient false,
        .RegisterPublicKeys ⟨7⟩ [[11], [11]]].filter Event.isEnclaveInit =
          [.EnclaveInit db pubs privs pi c g] ∧
      [Event.InitFlags, .LoadConfig "node.conf", .ParseCommandLine, .SetLevel WarnLevel,
        .InitLevelDb "/data/db",
        .InitPartyInfo "http://self:9000/" ["http://peer:9000/"] pollClient false,
        .EnclaveInit ⟨2⟩ ["/data/a.pub", "/data/b.pub"] ["/data/a.key", "/data/b.key"] ⟨7⟩
          httpDefaultClient false,
        .RegisterPublicKeys ⟨7⟩ [[11], [11]]].filter Event.isRegisterPublicKeys =
          [.RegisterPublicKeys pi (sampleWorld.EnclaveInit db pubs privs pi c g).PubKeys] ∧
      (main sampleWorld).trace.filter Event.isRegisterPublicKeys =
        [.RegisterPublicKeys pi (sampleWorld.EnclaveInit db pubs privs pi c g).PubKeys] :=
  keys_registered_before_serving sampleWorld
    [.InitFlags, .LoadConfig "node.conf", .ParseCommandLine, .SetLevel WarnLevel,
      .InitLevelDb "/data/db",
      .InitPartyInfo "http://self:9000/" ["http://peer:9000/"] pollClient false,
      .EnclaveInit ⟨2⟩ ["/data/a.pub", "/data/b.pub"] ["/data/a.key", "/data/b.key"] ⟨7⟩
        httpDefaultClient false,
      .RegisterPublicKeys ⟨7⟩ [[11], [11]]]
    [.PollPartyInfo ⟨7⟩]
    (.ServerInit ⟨3, [[11], [11]]⟩ 9000 "/data/crux.ipc" false 9001 false "" "")
    (by decide) (Or.inl rfl)

/-- C3: the client `main` hands to `api.InitPartyInfo` has a timeout of ten
seconds, but the client it hands to `enclave.Init` is `http.DefaultClient`,
whose timeout is zero, that is, none: in every run that calls `enclave.Init`,
and in the run of the sample node in particular, the blob-fetch transport is
not bounded. -/
theorem blob_fetch_client_not_bounded :
    (∀ (w : World) url nodes c g, Event.InitPartyInfo url nodes c g ∈ (main w).trace →
      c.Timeout = 10000000000 ∧ c.bounded) ∧
    (∀ (w : World) db pubs privs pi c g,
      Event.EnclaveInit db pubs privs pi c g ∈ (main w).trace →
        c = httpDefaultClient ∧ c.Timeout = 0 ∧ ¬ c.bounded) ∧
    Event.EnclaveInit ⟨2⟩ ["/data/a.pub", "/data/b.pub"] ["/data/a.key", "/data/b.key"] ⟨7⟩
      httpDefaultClient false ∈ (main sampleWorld).trace ∧
    ¬ httpDefaultClient.bounded := by
  refine ⟨?_, ?_, by decide, by decide⟩
  · intro w url nodes c g hmem
    have hp := main_path w
    generalize main w = r at hp hmem
    cases hp <;>
      simp [mem_settingsRead, eq_storageCall, partyCall, enclaveCall, registerCall, serverCall]
        at hmem
    all_goals
      obtain ⟨-, -, rfl, -⟩ := hmem
      exact ⟨rfl, by decide⟩
  · intro w db pubs privs pi c g hmem
    have hp := main_path w
    generalize main w = r at hp hmem
    cases hp <;>
      simp [mem_settingsRead, eq_storageCall, partyCall, enclaveCall, registerCall, serverCall]
        at hmem
    all_goals
      obtain ⟨-, -, -, -, rfl, -⟩ := hmem
      exact ⟨rfl, rfl, by decide⟩

/-- C4, as stated, fails: in the certificate utility with a failing
`enclave.CertGen`, `main` calls `config.CertUsage`, logs nothing fatal and
exits with status 0. -/
theorem certGen_error_exit_status :
    certFailWorld.CertGen "certs.conf" = some "cannot write certificate" ∧
    main certFailWorld =
      { trace := [.InitFlags, .ParseCommandLine, .SetLevel WarnLevel, .CertGen "certs.conf",
          .CertUsage],
        outcome := .exit 0 } ∧
    (∀ site, Event.logFatal site ∉ (main certFailWorld).trace) ∧
    ¬ ∃ code, code ≠ 0 ∧ (main certFailWorld).outcome = .exit code := by
  have hrun : main certFailWorld =
      { trace := [.InitFlags, .ParseCommandLine, .SetLevel WarnLevel, .CertGen "certs.conf",
          .CertUsage],
        outcome := .exit 0 } := by decide
  refine ⟨rfl, hrun, ?_, ?_⟩
  · intro site
    rw [hrun]
    simp
  · rw [hrun]
    rintro ⟨code, hne, hcode⟩
    cases hcode
    exact hne rfl

/-- C4, amended: an error returned by `config.LoadConfig`,
`enclave.DoKeyGeneration`, `storage.InitBerkeleyDb`, `storage.InitLevelDb` or
`server.Init` is handled by a fatal log: the failing call and the fatal log
are the last two calls of the run and the exit status is 1.  An error returned
by `enclave.CertGen` is handled by `config.CertUsage`: the failing call and
`config.CertUsage` are the last two calls of the run, and the process
exits. -/
theorem collaborator_errors (w : World) :
    (∀ file err, Event.LoadConfig file ∈ (main w).trace → w.LoadConfig file = some err →
      (∃ pre, (main w).trace = pre ++ [.LoadConfig file, .logFatal (.loadConfig err)]) ∧
      (main w).outcome = .exit 1) ∧
    (∀ keyFile err, Event.DoKeyGeneration keyFile ∈ (main w).trace →
      w.DoKeyGeneration keyFile = some err →
      (∃ pre, (main w).trace =
        pre ++ [.DoKeyGeneration keyFile, .logFatal (.keyGeneration err)]) ∧
      (main w).outcome = .exit 1) ∧
    (∀ path err, Event.InitBerkeleyDb path ∈ (main w).trace →
      (w.InitBerkeleyDb path).2 = some err →
      (∃ pre, (main w).trace = pre ++ [.InitBerkeleyDb path, .logFatal (.storage err)]) ∧
      (main w).outcome = .exit 1) ∧
    (∀ path err, Event.InitLevelDb path ∈ (main w).trace →
      (w.InitLevelDb path).2 = some err →
      (∃ pre, (main w).trace = pre ++ [.InitLevelDb path, .logFatal (.storage err)]) ∧
      (main w).outcome = .exit 1) ∧
    (∀ enc port ipc g gj t cf kf err,
      Event.ServerInit enc port ipc g gj t cf kf ∈ (main w).trace →
      w.ServerInit enc port ipc g gj t cf kf = some err →
      (∃ pre, (main w).trace =
        pre ++ [.ServerInit enc port ipc g gj t cf kf, .logFatal (.serverStart err)]) ∧
      (main w).outcome = .exit 1) ∧
    (∀ genCert err, Event.CertGen genCert ∈ (main w).trace → w.CertGen genCert = some err →
      (∃ pre, (main w).trace = pre ++ [.CertGen genCert, .CertUsage]) ∧
      ∃ code, (main w).outcome = .exit code) := by
  have hp := main_path w
  generalize main w = r at hp ⊢
  refine ⟨?_, ?_, ?_, ?_, ?_, ?_⟩
  · intro file err hmem herr
    cases hp <;>
      simp [mem_settingsRead, eq_storageCall, partyCall, enclaveCall, registerCall, serverCall]
        at hmem
    · subst hmem
      rename_i e h
      rw [h] at herr
      cases herr
      exact ⟨⟨[.InitFlags], rfl⟩, rfl⟩
    all_goals
      subst hmem
      have hpre : IsPreamble w (some file) := by assumption
      have hnone := hpre file rfl
      rw [herr] at hnone
      cases hnone
  · intro keyFile err hmem herr
    cases hp
    case keyGenerationFailed loaded err' hpre hkeys hgen =>
      simp [mem_settingsRead] at hmem
      subst hmem
      rw [herr] at hgen
      cases hgen
      exact ⟨⟨settingsRead w loaded, rfl⟩, rfl⟩
    case keysGenerated loaded hpre hkeys hgen =>
      simp [mem_settingsRead] at hmem
      subst hmem
      rw [herr] at hgen
      cases hgen
    all_goals
      exfalso
      simp [mem_settingsRead, eq_storageCall, partyCall, enclaveCall, registerCall, serverCall]
        at hmem
  · intro path err hmem herr
    cases hp
    case storageFailed loaded err' hpre hkeys hcert hdb =>
      simp [mem_settingsRead, eq_storageCall] at hmem
      obtain ⟨hflag, rfl⟩ := hmem
      have hsome : (storageResult w).2 = some err := by
        simpa [storageResult, hflag] using herr
      rw [hsome] at hdb
      cases hdb
      exact ⟨⟨settingsRead w loaded, by simp [storageCall, hflag]⟩, rfl⟩
    all_goals
      exfalso
      simp [mem_settingsRead, eq_storageCall, partyCall, enclaveCall, registerCall, serverCall]
        at hmem
    all_goals
      obtain ⟨hflag, rfl⟩ := hmem
      have hsome : (storageResult w).2 = some err := by
        simpa [storageResult, hflag] using herr
      simp_all [NormalChecks]
  · intro path err hmem herr
    cases hp
    case storageFailed loaded err' hpre hkeys hcert hdb =>
      simp [mem_settingsRead, eq_storageCall] at hmem
      obtain ⟨hflag, rfl⟩ := hmem
      have hsome : (storageResult w).2 = some err := by
        simpa [storageResult, hflag] using herr
      rw [hsome] at hdb
      cases hdb
      exact ⟨⟨settingsRead w loaded, by simp [storageCall, hflag]⟩, rfl⟩
    all_goals
      exfalso
      simp [mem_settingsRead, eq_storageCall, partyCall, enclaveCall, registerCall, serverCall]
        at hmem
    all_goals
      obtain ⟨hflag, rfl⟩ := hmem
      have hsome : (storageResult w).2 = some err := by
        simpa [storageResult, hflag] using herr
      simp_all [NormalChecks]
  · intro enc port ipc g gj t cf kf err hmem herr
    cases hp
    case serverFailed loaded err' hpre hnormal hcount htls hserver =>
      simp [mem_settingsRead, eq_storageCall, partyCall, enclaveCall, registerCall, serverCall]
        at hmem
      obtain ⟨rfl, rfl, rfl, rfl, rfl, rfl, rfl, rfl⟩ := hmem
      have hres : serverResult w = some err := herr
      rw [hres] at hserver
      cases hserver
      exact ⟨⟨settingsRead w loaded ++ [storageCall w, partyCall w, enclaveCall w,
        registerCall w], by simp [serverCall]⟩, rfl⟩
    case serving loaded hpre hnormal hcount htls hserver =>
      simp [mem_settingsRead, eq_storageCall, partyCall, enclaveCall, registerCall, serverCall]
        at hmem
      obtain ⟨rfl, rfl, rfl, rfl, rfl, rfl, rfl, rfl⟩ := hmem
      have hres : serverResult w = some err := herr
      rw [hres] at hserver
      cases hserver
    all_goals
      exfalso
      simp [mem_settingsRead, eq_storageCall, partyCall, enclaveCall, registerCall, serverCall]
        at hmem
  · intro genCert err hmem herr
    cases hp
    case certGenFailed loaded err' hpre hkeys hcert hconf hgen =>
      exact ⟨⟨settingsRead w loaded, by simp [mem_settingsRead] at hmem; rw [hmem]⟩, 0, rfl⟩
    case certGenerated loaded hpre hkeys hcert hconf hgen =>
      simp [mem_settingsRead] at hmem
      subst hmem
      rw [herr] at hgen
      cases hgen
    all_goals
      exfalso
      simp [mem_settingsRead, eq_storageCall, partyCall, enclaveCall, registerCall, serverCall]
        at hmem

/-- The sample node with a storage backend that fails to open: the error is
fatal. -/
theorem collaborator_errors_witness :
    (∃ pre, (main storageFailWorld).trace = pre ++ [.InitLevelDb "/data/db",
      .logFatal (.storage "resource temporarily unavailable")]) ∧
    (main storageFailWorld).outcome = .exit 1 :=
  (collaborator_errors storageFailWorld).2.2.2.1 "/data/db" "resource temporarily unavailable"
    (by decide) rfl

/-- C5: `main` calls `enclave.DoKeyGeneration` only with the GenerateKeys
setting and only when that setting is non-empty, and a run that reads the
settings with GenerateKeys non-empty does call it; the run then ends right
after, with exit status 0 when the generation succeeds and in the fatal log
of line 56, with exit status 1, when it fails.  With GenerateKeys non-empty no
run initialises the storage, the party directory, the enclave or the server,
and no run gets to serve.  With GenerateKeys empty, `DoKeyGeneration` is never
called. -/
theorem key_generation_utility (w : World) :
    (∀ keyFile, Event.DoKeyGeneration keyFile ∈ (main w).trace →
      keyFile = w.config.GenerateKeys ∧ w.config.GenerateKeys ≠ "") ∧
    (w.config.GenerateKeys ≠ "" →
      (Event.ParseCommandLine ∈ (main w).trace →
        Event.DoKeyGeneration w.config.GenerateKeys ∈ (main w).trace ∧
        (w.DoKeyGeneration w.config.GenerateKeys = none →
          (∃ pre, (main w).trace = pre ++ [.DoKeyGeneration w.config.GenerateKeys,
            .logKeyPairWritten w.config.GenerateKeys]) ∧
          (main w).outcome = .exit 0) ∧
        (∀ err, w.DoKeyGeneration w.config.GenerateKeys = some err →
          (∃ pre, (main w).trace = pre ++ [.DoKeyGeneration w.config.GenerateKeys,
            .logFatal (.keyGeneration err)]) ∧
          (main w).outcome = .exit 1)) ∧
      (∀ e ∈ (main w).trace, e.startsNode = false) ∧
      (main w).outcome ≠ .runsForever) ∧
    (w.config.GenerateKeys = "" → ∀ keyFile, Event.DoKeyGeneration keyFile ∉ (main w).trace) := by
  have hp := main_path w
  generalize main w = r at hp ⊢
  refine ⟨?_, fun hk => ⟨fun hparse => ?_, ?_, ?_⟩, fun hk keyFile hmem => ?_⟩
  · intro keyFile hmem
    cases hp <;>
      simp [mem_settingsRead, eq_storageCall, partyCall, enclaveCall, registerCall, serverCall]
        at hmem
    all_goals
      subst hmem
      exact ⟨rfl, by assumption⟩
  · cases hp
    case keyGenerationFailed loaded err' hpre hkeys hgen =>
      refine ⟨by simp, fun hnone => ?_, fun err herr => ?_⟩
      · rw [hnone] at hgen; cases hgen
      · rw [herr] at hgen; cases hgen
        exact ⟨⟨settingsRead w loaded, rfl⟩, rfl⟩
    case keysGenerated loaded hpre hkeys hgen =>
      refine ⟨by simp, fun _ => ⟨⟨settingsRead w loaded, rfl⟩, rfl⟩, fun err herr => ?_⟩
      rw [herr] at hgen; cases hgen
    all_goals
      first
        | (exfalso; simp at hparse; done)
        | (exfalso; simp_all [NormalChecks])
  · intro e hmem
    cases hp
    case noArguments => simp at hmem; rcases hmem with rfl | rfl <;> rfl
    case emptyArgs => simp at hmem; subst hmem; rfl
    case loadConfigFailed => simp at hmem; rcases hmem with rfl | rfl | rfl <;> rfl
    case keyGenerationFailed =>
      simp [mem_settingsRead] at hmem
      rcases hmem with (rfl | ⟨_, _, rfl⟩ | rfl | rfl) | rfl | rfl <;> rfl
    case keysGenerated =>
      simp [mem_settingsRead] at hmem
      rcases hmem with (rfl | ⟨_, _, rfl⟩ | rfl | rfl) | rfl | rfl <;> rfl
    all_goals
      exfalso
      simp_all [NormalChecks]
  · cases hp <;> simp
    all_goals simp_all [NormalChecks]
  · cases hp <;>
      simp [mem_settingsRead, eq_storageCall, partyCall, enclaveCall, registerCall, serverCall]
        at hmem
    all_goals simp_all

/-- The key-generation utility on the sample settings: the settings are read,
GenerateKeys is `node`, the generation succeeds and the process exits with
status 0 right after. -/
theorem key_generation_utility_witness :
    keyGenWorld.config.GenerateKeys ≠ "" ∧
    Event.ParseCommandLine ∈ (main keyGenWorld).trace ∧
    Event.DoKeyGeneration "node" ∈ (main keyGenWorld).trace ∧
    (∃ pre, (main keyGenWorld).trace = pre ++ [.DoKeyGeneration "node",
      .logKeyPairWritten "node"]) ∧
    (main keyGenWorld).outcome = .exit 0 :=
  ⟨by decide, by decide,
    (((key_generation_utility keyGenWorld).2.1 (by decide)).1 (by decide)).1,
    (((key_generation_utility keyGenWorld).2.1 (by decide)).1 (by decide)).2.1 rfl⟩

/-- C6: `storage.InitBerkeleyDb` is called only when the BerkeleyDb flag is
set and `storage.InitLevelDb` only when it is not, each with the path
`path.Join(workDir, Storage)`; no run calls a storage constructor twice, and a
normal start-up (the settings are read and no utility is selected) calls
exactly the one the flag selects; the DataStore passed to `enclave.Init` is the
one that constructor returned, and a normal start-up whose constructor returns
a store and no error, with a URL, a port and key settings that pass the checks
of lines 95-116, does pass that store to `enclave.Init`; and the flag is read
nowhere else: if both
constructors return the same store and error, the run with the flag set and
the run with the flag not set end the same way and make the same calls, the
constructor call apart. -/
theorem storage_backend_selection (w : World) :
    (∀ path, Event.InitBerkeleyDb path ∈ (main w).trace →
      w.config.BerkeleyDb = true ∧ path = w.pathJoin w.config.WorkDir w.config.Storage) ∧
    (∀ path, Event.InitLevelDb path ∈ (main w).trace →
      w.config.BerkeleyDb = false ∧ path = w.pathJoin w.config.WorkDir w.config.Storage) ∧
    ((main w).trace.filter Event.isStorageInit).length ≤ 1 ∧
    (Event.ParseCommandLine ∈ (main w).trace → w.config.GenerateKeys = "" →
      w.config.GenerateCert = "" →
      (main w).trace.filter Event.isStorageInit =
        [if w.config.BerkeleyDb
          then .InitBerkeleyDb (w.pathJoin w.config.WorkDir w.config.Storage)
          else .InitLevelDb (w.pathJoin w.config.WorkDir w.config.Storage)]) ∧
    (∀ db pubs privs pi c g, Event.EnclaveInit db pubs privs pi c g ∈ (main w).trace →
      db = (if w.config.BerkeleyDb
        then w.InitBerkeleyDb (w.pathJoin w.config.WorkDir w.config.Storage)
        else w.InitLevelDb (w.pathJoin w.config.WorkDir w.config.Storage)).1) ∧
    (Event.ParseCommandLine ∈ (main w).trace → w.config.GenerateKeys = "" →
      w.config.GenerateCert = "" → w.config.Url ≠ "" → 0 ≤ w.config.Port →
      (stringsSplit w.config.PublicKeys ',').length =
        (stringsSplit w.config.PrivateKeys ',').length →
      ∀ db, (if w.config.BerkeleyDb
          then w.InitBerkeleyDb (w.pathJoin w.config.WorkDir w.config.Storage)
          else w.InitLevelDb (w.pathJoin w.config.WorkDir w.config.Storage)) = (db, none) →
        ∃ pubs privs pi c g, Event.EnclaveInit db pubs privs pi c g ∈ (main w).trace) ∧
    (w.InitBerkeleyDb (w.pathJoin w.config.WorkDir w.config.Storage) =
        w.InitLevelDb (w.pathJoin w.config.WorkDir w.config.Storage) →
      (main (withBackend w true)).outcome = (main (withBackend w false)).outcome ∧
      (main (withBackend w true)).trace.filter (fun e => !e.isStorageInit) =
        (main (withBackend w false)).trace.filter (fun e => !e.isStorageInit)) := by
  have hsettings : ∀ loaded, (settingsRead w loaded).filter Event.isStorageInit = [] := by
    intro loaded
    cases loaded <;> rfl
  have hsc : (storageCall w).isStorageInit = true := by
    unfold storageCall; split_ifs <;> rfl
  have hfilter : ∀ loaded tail, (∀ y ∈ tail, y.isStorageInit = false) →
      (settingsRead w loaded ++ storageCall w :: tail).filter Event.isStorageInit =
        [storageCall w] := by
    intro loaded tail htail
    have ht : tail.filter Event.isStorageInit = [] :=
      List.filter_eq_nil_iff.mpr (fun y hy => by simp [htail y hy])
    simp only [List.filter_append, hsettings, List.filter_cons, hsc, if_true, ht,
      List.nil_append]
  have hnone : ∀ loaded tail, (∀ y ∈ tail, y.isStorageInit = false) →
      (settingsRead w loaded ++ tail).filter Event.isStorageInit = [] := by
    intro loaded tail htail
    have ht : tail.filter Event.isStorageInit = [] :=
      List.filter_eq_nil_iff.mpr (fun y hy => by simp [htail y hy])
    simp only [List.filter_append, hsettings, ht, List.append_nil]
  refine ⟨?_, ?_, ?_, ?_, ?_, ?_, fun h => main_same_backend w h⟩
  · intro path hmem
    have hp := main_path w
    generalize main w = r at hp hmem
    cases hp <;>
      simp [mem_settingsRead, eq_storageCall, partyCall, enclaveCall, registerCall, serverCall]
        at hmem
    all_goals exact ⟨hmem.1, hmem.2⟩
  · intro path hmem
    have hp := main_path w
    generalize main w = r at hp hmem
    cases hp <;>
      simp [mem_settingsRead, eq_storageCall, partyCall, enclaveCall, registerCall, serverCall]
        at hmem
    all_goals exact ⟨hmem.1, hmem.2⟩
  · have hp := main_path w
    generalize main w = r at hp
    cases hp
    case noArguments => decide
    case emptyArgs => decide
    case loadConfigFailed => simp [Event.isStorageInit]
    case keyGenerationFailed => rw [hnone _ _ (by simp [Event.isStorageInit])]; simp
    case keysGenerated => rw [hnone _ _ (by simp [Event.isStorageInit])]; simp
    case certNeedsConf => rw [hnone _ _ (by simp [Event.isStorageInit])]; simp
    case certGenFailed => rw [hnone _ _ (by simp [Event.isStorageInit])]; simp
    case certGenerated => rw [hnone _ _ (by simp [Event.isStorageInit])]; simp
    all_goals
      rw [hfilter _ _ (by simp [Event.isStorageInit, partyCall, enclaveCall, registerCall, serverCall])]
      simp
  · intro hparse hk hc
    have hp := main_path w
    generalize main w = r at hp hparse ⊢
    have hcall : storageCall w =
        if w.config.BerkeleyDb
          then .InitBerkeleyDb (w.pathJoin w.config.WorkDir w.config.Storage)
          else .InitLevelDb (w.pathJoin w.config.WorkDir w.config.Storage) := rfl
    rw [← hcall]
    cases hp
    case noArguments => simp at hparse
    case emptyArgs => simp at hparse
    case loadConfigFailed => simp at hparse
    case keyGenerationFailed => simp_all
    case keysGenerated => simp_all
    case certNeedsConf => simp_all
    case certGenFailed => simp_all
    case certGenerated => simp_all
    all_goals
      exact hfilter _ _ (by simp [Event.isStorageInit, partyCall, enclaveCall, registerCall, serverCall])
  · intro db pubs privs pi c g hmem
    have hp := main_path w
    generalize main w = r at hp hmem
    cases hp <;>
      simp [mem_settingsRead, eq_storageCall, partyCall, enclaveCall, registerCall, serverCall]
        at hmem
    all_goals
      rw [hmem.1]
      rfl
  · intro hparse hk hc hu hport hcount db hres
    have hsr : storageResult w = (db, none) := hres
    have hp := main_path w
    generalize main w = r at hp hparse ⊢
    cases hp
    case noArguments => simp at hparse
    case emptyArgs => simp at hparse
    case loadConfigFailed => simp at hparse
    case keyGenerationFailed => simp_all
    case keysGenerated => simp_all
    case certNeedsConf => simp_all
    case certGenFailed => simp_all
    case certGenerated => simp_all
    case storageFailed loaded err hpre hkeys hcert hdb =>
      rw [hsr] at hdb
      cases hdb
    case urlMissing loaded hpre hkeys hcert hdb hurl => exact absurd hurl hu
    case portMissing loaded hpre hkeys hcert hdb hurl hlt =>
      exact absurd hport (not_le.mpr hlt)
    case keyCountMismatch loaded hpre hnormal hne => exact absurd hcount.symm hne
    all_goals
      exact ⟨pubKeyFiles w, privKeyFiles w, partyInfo w, httpDefaultClient, w.config.UseGRPC,
        by simp [mem_settingsRead, enclaveCall, hsr]⟩

/-- Three runs.  The sample node, a normal start-up with the flag not set:
the one storage constructor called is `storage.InitLevelDb`, on `/data/db`, and
the store it returns is passed to `enclave.Init`.  The sample node with the
flag set: `storage.InitBerkeleyDb` is called, on `/data/db`, and the store it
returns is passed to `enclave.Init`.  And with both constructors opening the
same store, setting the flag changes nothing but the constructor called. -/
theorem storage_backend_selection_witness :
    Event.ParseCommandLine ∈ (main sampleWorld).trace ∧
    (main sampleWorld).trace.filter Event.isStorageInit = [.InitLevelDb "/data/db"] ∧
    sampleWorld.InitLevelDb "/data/db" = (⟨2⟩, none) ∧
    (∃ pubs privs pi c g,
      Event.EnclaveInit ⟨2⟩ pubs privs pi c g ∈ (main sampleWorld).trace) ∧
    Event.ParseCommandLine ∈ (main berkeleyWorld).trace ∧
    (main berkeleyWorld).trace.filter Event.isStorageInit = [.InitBerkeleyDb "/data/db"] ∧
    berkeleyWorld.InitBerkeleyDb "/data/db" = (⟨1⟩, none) ∧
    (∃ pubs privs pi c g,
      Event.EnclaveInit ⟨1⟩ pubs privs pi c g ∈ (main berkeleyWorld).trace) ∧
    oneStoreWorld.InitBerkeleyDb "/data/db" = oneStoreWorld.InitLevelDb "/data/db" ∧
    (main (withBackend oneStoreWorld true)).outcome =
      (main (withBackend oneStoreWorld false)).outcome ∧
    (main (withBackend oneStoreWorld true)).trace.filter (fun e => !e.isStorageInit) =
      (main (withBackend oneStoreWorld false)).trace.filter (fun e => !e.isStorageInit) :=
  ⟨by decide, (storage_backend_selection sampleWorld).2.2.2.1 (by decide) rfl rfl, rfl,
    (storage_backend_selection sampleWorld).2.2.2.2.2.1 (by decide) rfl rfl (by decide)
      (by decide) (by decide) ⟨2⟩ rfl,
    by decide, (storage_backend_selection berkeleyWorld).2.2.2.1 (by decide) rfl rfl, rfl,
    (storage_backend_selection berkeleyWorld).2.2.2.2.2.1 (by decide) rfl rfl (by decide)
      (by decide) (by decide) ⟨1⟩ rfl,
    rfl, (storage_backend_selection oneStoreWorld).2.2.2.2.2.2 rfl⟩

/-- C7: in a run that has registered the node's keys (so that `main` is at the
TLS settings): with the Tls flag set, `server.Init` is called if and only if
the certificate and key names are non-empty and of equal length; two
non-empty names of different lengths end the run in the fatal log of line 143;
and a call of `server.Init` gets `path.Join(workDir, cert)` and
`path.Join(workDir, key)`.  With the flag not set, `server.Init` is called
with both file names empty. -/
theorem tls_server_files (w : World) (pi : PartyInfo) (keys : List Key)
    (hreach : Event.RegisterPublicKeys pi keys ∈ (main w).trace) :
    (w.config.Tls = true →
      ((∃ enc port ipc g gj t cf kf,
          Event.ServerInit enc port ipc g gj t cf kf ∈ (main w).trace) ↔
        (w.config.TlsServerCert ≠ "" ∧ w.config.TlsServerKey ≠ "" ∧
          len w.config.TlsServerCert = len w.config.TlsServerKey)) ∧
      (w.config.TlsServerCert ≠ "" → w.config.TlsServerKey ≠ "" →
        len w.config.TlsServerCert ≠ len w.config.TlsServerKey →
        (∃ pre, (main w).trace = pre ++ [.RegisterPublicKeys pi keys,
          .logFatal (.tlsFiles w.config.TlsServerKey w.config.TlsServerCert
            (len w.config.TlsServerCert))]) ∧
        (main w).outcome = .exit 1) ∧
      (∀ enc port ipc g gj t cf kf,
        Event.ServerInit enc port ipc g gj t cf kf ∈ (main w).trace →
          t = true ∧ cf = w.pathJoin w.config.WorkDir w.config.TlsServerCert ∧
            kf = w.pathJoin w.config.WorkDir w.config.TlsServerKey)) ∧
    (w.config.Tls = false →
      (∃ enc port ipc g gj, Event.ServerInit enc port ipc g gj false "" "" ∈ (main w).trace) ∧
      (∀ enc port ipc g gj t cf kf,
        Event.ServerInit enc port ipc g gj t cf kf ∈ (main w).trace →
          t = false ∧ cf = "" ∧ kf = "")) := by
  have hp := main_path w
  generalize main w = r at hp hreach ⊢
  cases hp <;>
    simp [mem_settingsRead, eq_storageCall, partyCall, enclaveCall, registerCall, serverCall]
      at hreach
  · rename_i loaded hpre hnormal hcount htls
    obtain ⟨rfl, rfl⟩ := hreach
    have ht : w.config.Tls = true := htls.1
    have hrej := fun hq => ((not_tlsRejected_iff w ht).mpr hq) htls
    refine ⟨fun _ => ⟨?_, ?_, ?_⟩, fun hf => ?_⟩
    · simp [mem_settingsRead, eq_storageCall, partyCall, enclaveCall, registerCall]
      intro hc hk
      exact fun heq => hrej ⟨hc, hk, heq⟩
    · intro _ _ _
      exact ⟨⟨settingsRead w loaded ++ [storageCall w, partyCall w, enclaveCall w],
        by simp [registerCall]⟩, rfl⟩
    · simp [mem_settingsRead, eq_storageCall, partyCall, enclaveCall, registerCall]
    · rw [ht] at hf; cases hf
  all_goals
    rename_i htls _
    clear hreach
    refine ⟨fun ht => ?_, fun hf => ?_⟩
    · have hacc := (not_tlsRejected_iff w ht).mp htls
      refine ⟨⟨fun _ => hacc, fun _ => ?_⟩, fun _ _ hne => absurd hacc.2.2 hne, ?_⟩
      · exact ⟨enclaveOf w, w.config.Port, ipcPath w, w.config.UseGRPC, w.config.GrpcJsonPort,
          w.config.Tls, tlsCertFile w, tlsKeyFile w, by simp [serverCall]⟩
      · intro enc port ipc g gj t cf kf hmem
        simp [mem_settingsRead, eq_storageCall, partyCall, enclaveCall, registerCall, serverCall,
          tlsCertFile, tlsKeyFile, ht] at hmem
        simp [hmem]
    · refine ⟨⟨enclaveOf w, w.config.Port, ipcPath w, w.config.UseGRPC, w.config.GrpcJsonPort,
        by simp [serverCall, tlsCertFile, tlsKeyFile, hf]⟩, ?_⟩
      intro enc port ipc g gj t cf kf hmem
      simp [mem_settingsRead, eq_storageCall, partyCall, enclaveCall, registerCall, serverCall,
        tlsCertFile, tlsKeyFile, hf] at hmem
      simp [hmem]

/-- The sample node with TLS on, certificate `cert.pem` and key `key.pem`:
both names are non-empty, the lengths differ, and the run ends in the fatal
log of line 143 right after the keys are registered. -/
theorem tls_server_files_witness :
    Event.RegisterPublicKeys ⟨7⟩ [[11], [11]] ∈ (main tlsWorld).trace ∧
    len "cert.pem" ≠ len "key.pem" ∧
    (∃ pre, (main tlsWorld).trace = pre ++ [.RegisterPublicKeys ⟨7⟩ [[11], [11]],
      .logFatal (.tlsFiles "key.pem" "cert.pem" 8)]) ∧
    (main tlsWorld).outcome = .exit 1 :=
  ⟨by decide, by decide,
    ((tls_server_files tlsWorld ⟨7⟩ [[11], [11]] (by decide)).1 rfl).2.1
      (by decide) (by decide) (by decide)⟩

/-- C8: the branch "Node key files must be provided" is never taken:
`strings.Split(privKeys, ",")` has at least one element for every value of
the PrivateKeys setting, so neither `main` nor the key-file stage ever logs that
message; and with both settings empty the key-file stage does not fail but
calls `enclave.Init` with one public and one private key path, each
`path.Join(workDir, "")`, and goes on to register the keys and start the
server. -/
theorem node_key_files_branch_unreachable (w : World) :
    (∀ privKeys : String, 1 ≤ (stringsSplit privKeys ',').length) ∧
    Event.logFatal .noKeyFiles ∉ (main w).trace ∧
    (∀ db port ipcPath grpc pi,
      Event.logFatal .noKeyFiles ∉ (loadKeys w db port ipcPath grpc pi).trace) ∧
    stringsSplit "" ',' = [""] ∧
    (w.config.PrivateKeys = "" → w.config.PublicKeys = "" →
      (∀ db port ipcPath grpc pi,
        loadKeys w db port ipcPath grpc pi =
          emit (.EnclaveInit db [w.pathJoin w.config.WorkDir ""] [w.pathJoin w.config.WorkDir ""]
              pi httpDefaultClient grpc)
            (emit (.RegisterPublicKeys pi
                (w.EnclaveInit db [w.pathJoin w.config.WorkDir ""]
                  [w.pathJoin w.config.WorkDir ""] pi httpDefaultClient grpc).PubKeys)
              (startServer w port ipcPath grpc pi
                (w.EnclaveInit db [w.pathJoin w.config.WorkDir ""]
                  [w.pathJoin w.config.WorkDir ""] pi httpDefaultClient grpc)))) ∧
      (∀ url nodes c g, Event.InitPartyInfo url nodes c g ∈ (main w).trace →
        Event.logFatal .keyCountMismatch ∉ (main w).trace ∧
        ∃ db pi, Event.EnclaveInit db [w.pathJoin w.config.WorkDir ""]
          [w.pathJoin w.config.WorkDir ""] pi httpDefaultClient g ∈ (main w).trace)) := by
  have hsplit : ∀ s : String, 1 ≤ (stringsSplit s ',').length :=
    fun s => splitAux_length_pos ',' s.data []
  refine ⟨hsplit, ?_, ?_, rfl, ?_⟩
  · have hp := main_path w
    generalize main w = r at hp ⊢
    cases hp <;>
      simp [mem_settingsRead, eq_storageCall, partyCall, enclaveCall, registerCall, serverCall]
  · intro db port ipcPath grpc pi
    unfold loadKeys
    simp only []
    have hpos : (stringsSplit w.config.PrivateKeys ',').length ≠ 0 :=
      Nat.ne_of_gt (hsplit _)
    by_cases hl : (stringsSplit w.config.PrivateKeys ',').length =
        (stringsSplit w.config.PublicKeys ',').length
    · rw [if_neg (not_not.mpr hl), if_neg hpos]
      simp only [emit, List.mem_cons, reduceCtorEq, false_or]
      unfold startServer
      simp only []
      split_ifs <;> (try split) <;> simp [fatal, emit, halt]
    · rw [if_pos hl]
      simp [fatal, emit, halt]
  · intro hpriv hpub
    have hempty : stringsSplit "" ',' = [""] := rfl
    refine ⟨?_, ?_⟩
    · intro db port ipcPath grpc pi
      unfold loadKeys
      simp only [hpriv, hpub, hempty]
      simp
    · intro url nodes c g hmem
      have hp := main_path w
      generalize main w = r at hp hmem ⊢
      cases hp <;>
        simp_all [mem_settingsRead, eq_storageCall, partyCall, enclaveCall, registerCall,
          serverCall, pubKeyFiles, privKeyFiles]

/-- The sample node with both key settings empty reaches `enclave.Init` with
one public and one private key path. -/
theorem node_key_files_branch_unreachable_witness :
    noKeysWorld.config.PrivateKeys = "" ∧ noKeysWorld.config.PublicKeys = "" ∧
    Event.logFatal .keyCountMismatch ∉ (main noKeysWorld).trace ∧
    ∃ db pi, Event.EnclaveInit db [sampleJoin "/data" ""] [sampleJoin "/data" ""] pi
      httpDefaultClient false ∈ (main noKeysWorld).trace :=
  ⟨rfl, rfl, ((node_key_files_branch_unreachable noKeysWorld).2.2.2.2 rfl rfl).2
    "http://self:9000/" ["http://peer:9000/"] pollClient false (by decide)⟩

/-- C9: a run of `main` that reads the settings calls `log.SetLevel` exactly
once, with `logLevel` of the Verbosity setting and of nothing else (a run that
ends before that sets no level); verbosity 0, 1, 2, 3 make `main` set
FatalLevel, WarnLevel, InfoLevel, DebugLevel; every other integer makes it set
PanicLevel, the zero value of `log.Level`; no run sets ErrorLevel; and a run
with a verbosity above 3 logs less than a run with verbosity 0: every entry
level enabled by the level the first sets is enabled by the level the second
sets, and fatal entries are enabled in the second only. -/
theorem log_level_of_verbosity (w : World) :
    (∀ l, Event.SetLevel l ∈ (main w).trace → l = logLevel w.config.Verbosity) ∧
    logLevel 0 = FatalLevel ∧ logLevel 1 = WarnLevel ∧ logLevel 2 = InfoLevel ∧
    logLevel 3 = DebugLevel ∧
    (∀ v : Int, v < 0 ∨ 3 < v → logLevel v = PanicLevel) ∧ PanicLevel = (0 : Level) ∧
    (∀ v : Int, logLevel v ≠ ErrorLevel) ∧
    (∀ v : Int, 3 < v →
      (∀ entry, isLevelEnabled (logLevel v) entry = true →
        isLevelEnabled (logLevel 0) entry = true) ∧
      isLevelEnabled (logLevel 0) FatalLevel = true ∧
      isLevelEnabled (logLevel v) FatalLevel = false) ∧
    (Event.ParseCommandLine ∈ (main w).trace →
      (main w).trace.filter Event.isSetLevel = [.SetLevel (logLevel w.config.Verbosity)]) ∧
    (Event.ParseCommandLine ∉ (main w).trace →
      (main w).trace.filter Event.isSetLevel = []) ∧
    (Event.ParseCommandLine ∈ (main w).trace →
      (w.config.Verbosity = 0 → Event.SetLevel FatalLevel ∈ (main w).trace) ∧
      (w.config.Verbosity = 1 → Event.SetLevel WarnLevel ∈ (main w).trace) ∧
      (w.config.Verbosity = 2 → Event.SetLevel InfoLevel ∈ (main w).trace) ∧
      (w.config.Verbosity = 3 → Event.SetLevel DebugLevel ∈ (main w).trace) ∧
      (w.config.Verbosity < 0 ∨ 3 < w.config.Verbosity →
        Event.SetLevel PanicLevel ∈ (main w).trace)) ∧
    Event.SetLevel ErrorLevel ∉ (main w).trace ∧
    (∀ w₀ : World, w₀.config.Verbosity = 0 → 3 < w.config.Verbosity →
      Event.ParseCommandLine ∈ (main w).trace → Event.ParseCommandLine ∈ (main w₀).trace →
      ∃ l l₀, (main w).trace.filter Event.isSetLevel = [.SetLevel l] ∧
        (main w₀).trace.filter Event.isSetLevel = [.SetLevel l₀] ∧
        (∀ entry, isLevelEnabled l entry = true → isLevelEnabled l₀ entry = true) ∧
        isLevelEnabled l₀ FatalLevel = true ∧ isLevelEnabled l FatalLevel = false) := by
  have hother : ∀ v : Int, v < 0 ∨ 3 < v → logLevel v = PanicLevel := by
    intro v hv
    have h0 : v ≠ 0 := by omega
    have h1 : v ≠ 1 := by omega
    have h2 : v ≠ 2 := by omega
    have h3 : v ≠ 3 := by omega
    simp [logLevel, h0, h1, h2, h3, PanicLevel]
  have hnoError : ∀ v : Int, logLevel v ≠ ErrorLevel := by
    intro v
    unfold logLevel
    split_ifs <;> decide
  have hless : ∀ v : Int, 3 < v →
      (∀ entry, isLevelEnabled (logLevel v) entry = true →
        isLevelEnabled (logLevel 0) entry = true) ∧
      isLevelEnabled (logLevel 0) FatalLevel = true ∧
      isLevelEnabled (logLevel v) FatalLevel = false := by
    intro v hv
    have hzero : logLevel 0 = FatalLevel := rfl
    rw [hother v (Or.inr hv), hzero]
    refine ⟨?_, by decide, by decide⟩
    intro entry
    simp only [isLevelEnabled, PanicLevel, FatalLevel, decide_eq_true_eq]
    intro h
    exact Nat.le_trans h (by decide)
  have hvalue : ∀ l, Event.SetLevel l ∈ (main w).trace → l = logLevel w.config.Verbosity := by
    intro l hmem
    have hp := main_path w
    generalize main w = r at hp hmem
    cases hp <;>
      simp [mem_settingsRead, eq_storageCall, partyCall, enclaveCall, registerCall, serverCall]
        at hmem
    all_goals exact hmem
  have hset : ∀ u : World, Event.ParseCommandLine ∈ (main u).trace →
      (main u).trace.filter Event.isSetLevel = [.SetLevel (logLevel u.config.Verbosity)] := by
    intro u hparse
    have hsettings : ∀ loaded, (settingsRead u loaded).filter Event.isSetLevel =
        [.SetLevel (logLevel u.config.Verbosity)] := by
      intro loaded
      cases loaded <;> rfl
    have hsc : (storageCall u).isSetLevel = false := by
      unfold storageCall; split_ifs <;> rfl
    have htail : ∀ loaded tail, (∀ y ∈ tail, y.isSetLevel = false) →
        (settingsRead u loaded ++ tail).filter Event.isSetLevel =
          [.SetLevel (logLevel u.config.Verbosity)] := by
      intro loaded tail h
      have ht : tail.filter Event.isSetLevel = [] :=
        List.filter_eq_nil_iff.mpr (fun y hy => by simp [h y hy])
      simp only [List.filter_append, hsettings, ht, List.append_nil]
    have hstore : ∀ loaded tail, (∀ y ∈ tail, y.isSetLevel = false) →
        (settingsRead u loaded ++ storageCall u :: tail).filter Event.isSetLevel =
          [.SetLevel (logLevel u.config.Verbosity)] := by
      intro loaded tail h
      refine htail loaded _ ?_
      intro y hy
      rcases List.mem_cons.mp hy with rfl | hy
      · exact hsc
      · exact h y hy
    have hp := main_path u
    generalize main u = r at hp hparse ⊢
    cases hp
    case noArguments => simp at hparse
    case emptyArgs => simp at hparse
    case loadConfigFailed => simp at hparse
    case keyGenerationFailed => exact htail _ _ (by simp [Event.isSetLevel])
    case keysGenerated => exact htail _ _ (by simp [Event.isSetLevel])
    case certNeedsConf => exact htail _ _ (by simp [Event.isSetLevel])
    case certGenFailed => exact htail _ _ (by simp [Event.isSetLevel])
    case certGenerated => exact htail _ _ (by simp [Event.isSetLevel])
    all_goals
      exact hstore _ _
        (by simp [Event.isSetLevel, partyCall, enclaveCall, registerCall, serverCall])
  have hmem : Event.ParseCommandLine ∈ (main w).trace →
      Event.SetLevel (logLevel w.config.Verbosity) ∈ (main w).trace := by
    intro hparse
    have hin : Event.SetLevel (logLevel w.config.Verbosity) ∈
        (main w).trace.filter Event.isSetLevel := by
      rw [hset w hparse]
      exact List.mem_singleton.mpr rfl
    exact (List.mem_filter.mp hin).1
  refine ⟨hvalue, rfl, rfl, rfl, rfl, hother, rfl, hnoError, hless, hset w, ?_, ?_, ?_, ?_⟩
  · intro hparse
    have hp := main_path w
    generalize main w = r at hp hparse ⊢
    cases hp
    case noArguments => rfl
    case emptyArgs => rfl
    case loadConfigFailed => rfl
    all_goals
      exfalso
      exact hparse (by simp [mem_settingsRead])
  · intro hparse
    have hm := hmem hparse
    have e0 : logLevel 0 = FatalLevel := rfl
    have e1 : logLevel 1 = WarnLevel := rfl
    have e2 : logLevel 2 = InfoLevel := rfl
    have e3 : logLevel 3 = DebugLevel := rfl
    refine ⟨fun h => ?_, fun h => ?_, fun h => ?_, fun h => ?_, fun h => ?_⟩
    · rw [h, e0] at hm; exact hm
    · rw [h, e1] at hm; exact hm
    · rw [h, e2] at hm; exact hm
    · rw [h, e3] at hm; exact hm
    · rw [hother _ h] at hm; exact hm
  · intro hm
    exact hnoError _ (hvalue _ hm).symm
  · intro w₀ h0 hv hparse hparse0
    refine ⟨logLevel w.config.Verbosity, logLevel w₀.config.Verbosity, hset w hparse,
      hset w₀ hparse0, ?_⟩
    rw [h0]
    exact hless _ hv

/-- Two runs of the sample node, with verbosity 7 and with verbosity 0: both
read the settings; the first sets PanicLevel and the second FatalLevel, each
once; and the first logs less than the second. -/
theorem log_level_of_verbosity_witness :
    Event.ParseCommandLine ∈ (main loudWorld).trace ∧
    Event.ParseCommandLine ∈ (main quietWorld).trace ∧
    (main loudWorld).trace.filter Event.isSetLevel = [.SetLevel PanicLevel] ∧
    (main quietWorld).trace.filter Event.isSetLevel = [.SetLevel FatalLevel] ∧
    Event.SetLevel PanicLevel ∈ (main loudWorld).trace ∧
    Event.SetLevel FatalLevel ∈ (main quietWorld).trace ∧
    (∃ l l₀, (main loudWorld).trace.filter Event.isSetLevel = [.SetLevel l] ∧
      (main quietWorld).trace.filter Event.isSetLevel = [.SetLevel l₀] ∧
      (∀ entry, isLevelEnabled l entry = true → isLevelEnabled l₀ entry = true) ∧
      isLevelEnabled l₀ FatalLevel = true ∧ isLevelEnabled l FatalLevel = false) :=
  ⟨by decide, by decide,
    (log_level_of_verbosity loudWorld).2.2.2.2.2.2.2.2.2.1 (by decide),
    (log_level_of_verbosity quietWorld).2.2.2.2.2.2.2.2.2.1 (by decide),
    ((log_level_of_verbosity loudWorld).2.2.2.2.2.2.2.2.2.2.2.1 (by decide)).2.2.2.2
      (Or.inr (by decide)),
    ((log_level_of_verbosity quietWorld).2.2.2.2.2.2.2.2.2.2.2.1 (by decide)).1 rfl,
    (log_level_of_verbosity loudWorld).2.2.2.2.2.2.2.2.2.2.2.2.2 quietWorld rfl (by decide)
      (by decide) (by decide)⟩

end Crux
